import Mathlib

/-!
Shallow embedding of agola's docker executor driver
(`internal/services/executor/driver/docker.go`) and verification of the
specification's claims about it.

The docker daemon is modelled as an explicit state (`DState`) holding the
containers, volumes and local images the daemon knows about, together with a
log of the image-fetch requests the driver issued.  Every daemon RPC that the
driver performs is a pure state transformer; RPCs are modelled as succeeding
(runtime transport failures are environment failures, not driver logic).
Fallible driver operations return `Except Err`.
-/

namespace AgolaDocker

/-! ## Decimal integers: `strconv.Itoa` / `strconv.Atoi`

The driver stamps container indices with `strconv.Itoa(index)` and parses
them back with `strconv.Atoi`.  We model the decimal printer and parser
directly (Go's `Atoi` additionally rejects values overflowing 64 bits, which
is irrelevant here). -/

/-- One decimal digit rendered as a character (`0 ≤ d ≤ 9`; other inputs are
never produced by `Nat.digits 10`). -/
def digitChar (d : Nat) : Char :=
  match d with
  | 0 => '0' | 1 => '1' | 2 => '2' | 3 => '3' | 4 => '4'
  | 5 => '5' | 6 => '6' | 7 => '7' | 8 => '8' | _ => '9'

/-- Digit characters of `n`, most significant first; the first argument is
recursion fuel (any fuel `≥ n` gives the full rendering). -/
def itoaAux : Nat → Nat → List Char
  | 0, _ => []
  | fuel + 1, n => if n = 0 then [] else itoaAux fuel (n / 10) ++ [digitChar (n % 10)]

/-- `strconv.Itoa` for naturals: the usual base-10 rendering. -/
def itoa (n : Nat) : String :=
  if n = 0 then "0" else ⟨itoaAux n n⟩

theorem itoaAux_eq_digits {fuel n : Nat} (h : n ≤ fuel) :
    itoaAux fuel n = ((Nat.digits 10 n).reverse).map digitChar := by
  induction fuel generalizing n with
  | zero =>
    interval_cases n
    simp [itoaAux]
  | succ f ih =>
    by_cases hn : n = 0
    · subst hn; simp [itoaAux]
    · have hlt : n / 10 < n := Nat.div_lt_self (Nat.pos_of_ne_zero hn) (by norm_num)
      have hle : n / 10 ≤ f := by omega
      rw [itoaAux, if_neg hn, ih hle, Nat.digits_def' (by norm_num : 1 < 10)
        (Nat.pos_of_ne_zero hn)]
      simp

/-- Value of a decimal digit character. -/
def digitVal (c : Char) : Option Nat :=
  if 48 ≤ c.toNat ∧ c.toNat ≤ 57 then some (c.toNat - 48) else none

/-- Parse a list of decimal digit characters (most significant first). -/
def parseDigits : List Char → Option (List Nat)
  | [] => some []
  | c :: cs =>
    match digitVal c, parseDigits cs with
    | some d, some ds => some (d :: ds)
    | _, _ => none

/-- `strconv.Atoi`: optional sign followed by at least one decimal digit. -/
def atoi (s : String) : Option Int :=
  match s.data with
  | [] => none
  | c :: cs =>
    if c = '-' then
      if cs = [] then none
      else (parseDigits cs).map (fun ds => -(Int.ofNat (Nat.ofDigits 10 ds.reverse)))
    else if c = '+' then
      if cs = [] then none
      else (parseDigits cs).map (fun ds => Int.ofNat (Nat.ofDigits 10 ds.reverse))
    else (parseDigits (c :: cs)).map (fun ds => Int.ofNat (Nat.ofDigits 10 ds.reverse))

theorem digitVal_digitChar {d : Nat} (h : d < 10) : digitVal (digitChar d) = some d := by
  interval_cases d <;> decide

theorem digitChar_ne_minus (d : Nat) : digitChar d ≠ '-' := by
  unfold digitChar
  split <;> decide

theorem digitChar_ne_plus (d : Nat) : digitChar d ≠ '+' := by
  unfold digitChar
  split <;> decide

theorem parseDigits_map_digitChar {l : List Nat} (h : ∀ d ∈ l, d < 10) :
    parseDigits (l.map digitChar) = some l := by
  induction l with
  | nil => rfl
  | cons d ds ih =>
    have hd : d < 10 := h d (List.mem_cons_self d ds)
    have hds : ∀ x ∈ ds, x < 10 := fun x hx => h x (List.mem_cons_of_mem d hx)
    simp [parseDigits, digitVal_digitChar hd, ih hds]

/-- Printing then parsing a natural gives it back. -/
theorem atoi_itoa (n : Nat) : atoi (itoa n) = some (n : Int) := by
  by_cases h0 : n = 0
  · subst h0; decide
  · have hdig : ∀ d ∈ (Nat.digits 10 n).reverse, d < 10 := by
      intro d hd
      exact Nat.digits_lt_base (by norm_num) (List.mem_reverse.mp hd)
    have hne : (Nat.digits 10 n).reverse ≠ [] := by
      simp [Nat.digits_ne_nil_iff_ne_zero, h0]
    have hrw : itoa n = ⟨((Nat.digits 10 n).reverse).map digitChar⟩ := by
      unfold itoa
      rw [if_neg h0, itoaAux_eq_digits (le_refl n)]
    rw [hrw]
    obtain ⟨d, ds, hcons⟩ := List.exists_cons_of_ne_nil hne
    have hstr : (String.mk (((Nat.digits 10 n).reverse).map digitChar)).data
        = ((Nat.digits 10 n).reverse).map digitChar := rfl
    unfold atoi
    rw [hstr, hcons]
    simp only [List.map_cons]
    rw [if_neg (digitChar_ne_minus d), if_neg (digitChar_ne_plus d)]
    rw [← List.map_cons, ← hcons, parseDigits_map_digitChar hdig]
    simp [List.reverse_reverse, Nat.ofDigits_digits]

/-! ## String comparison helpers

`strings.Compare`, `strings.HasPrefix` and path-suffix tests, written
structurally over the character data. -/

/-- Lexicographic `≤` on character lists (`strings.Compare(a, b) ≤ 0`). -/
def charListLe : List Char → List Char → Bool
  | [], _ => true
  | _ :: _, [] => false
  | a :: as, b :: bs => if a = b then charListLe as bs else decide (a < b)

def strLe (a b : String) : Bool := charListLe a.data b.data

/-- `strings.HasPrefix(s, p)`. -/
def strHasPfx (s p : String) : Bool := p.data.isPrefixOf s.data

/-- Does `s` end with `p`? -/
def strHasSfx (s p : String) : Bool := p.data.reverse.isPrefixOf s.data.reverse

/-! ## Association lists (Go maps with a fixed iteration order) -/

/-- Lookup in a `map[string]V`, modelled as an association list. -/
def findAssoc {α : Type} (m : List (String × α)) (k : String) : Option α :=
  (m.find? (fun p => p.1 == k)).map Prod.snd

/-- Map update `m[k] = v`. -/
def setAssoc {α : Type} (m : List (String × α)) (k : String) (v : α) :
    List (String × α) :=
  match m with
  | [] => [(k, v)]
  | (k2, v2) :: rest => if k2 == k then (k, v) :: rest else (k2, v2) :: setAssoc rest k v

/-- Map deletion `delete(m, k)`. -/
def eraseAssoc {α : Type} (m : List (String × α)) (k : String) : List (String × α) :=
  m.filter (fun p => p.1 != k)

theorem findAssoc_setAssoc_self {α : Type} (m : List (String × α)) (k : String) (v : α) :
    findAssoc (setAssoc m k v) k = some v := by
  induction m with
  | nil => simp [setAssoc, findAssoc, List.find?]
  | cons p rest ih =>
    obtain ⟨k2, v2⟩ := p
    by_cases h : k2 = k
    · subst h; simp [setAssoc, findAssoc, List.find?]
    · have hbeq : (k2 == k) = false := beq_eq_false_iff_ne.mpr h
      simp only [setAssoc, hbeq, if_false]
      simp only [findAssoc, List.find?, hbeq]
      exact ih

theorem findAssoc_setAssoc_ne {α : Type} (m : List (String × α)) (k k2 : String) (v : α)
    (h : k2 ≠ k) : findAssoc (setAssoc m k2 v) k = findAssoc m k := by
  induction m with
  | nil =>
    simp [setAssoc, findAssoc, List.find?, beq_eq_false_iff_ne.mpr h]
  | cons p rest ih =>
    obtain ⟨k3, v3⟩ := p
    by_cases h3 : k3 = k2
    · subst h3
      simp only [setAssoc, beq_self_eq_true, if_true]
      simp [findAssoc, List.find?, beq_eq_false_iff_ne.mpr h]
    · have hbeq : (k3 == k2) = false := beq_eq_false_iff_ne.mpr h3
      simp only [setAssoc, hbeq, if_false]
      by_cases h4 : k3 = k
      · subst h4; simp [findAssoc, List.find?]
      · have hbeq4 : (k3 == k) = false := beq_eq_false_iff_ne.mpr h4
        simp only [findAssoc, List.find?, hbeq4]
        exact ih

/-! ## Label constants

Modelled from the spec: the label keys, the `main` container name, the
`toolbox`/`project` volume-name values and the default project directory are
declared in a sibling file of the repository (`lib.go`/`driver.go`) that is
not under `src/`; the spec describes them in §3 "Labels", §4.5 and §6
"Canonical paths".  Only their distinctness and shared prefix matter. -/

def labelPfx : String := "agola.io/"
def agolaLabelKey : String := labelPfx ++ "agola"
def agolaLabelValue : String := "true"
def executorIDKey : String := labelPfx ++ "executorid"
def podIDKey : String := labelPfx ++ "podid"
def taskIDKey : String := labelPfx ++ "taskid"
def containerIndexKey : String := labelPfx ++ "containerindex"
def containerNameKey : String := labelPfx ++ "containername"
def volumeNameKey : String := labelPfx ++ "volumename"
def mainContainerName : String := "main"
def toolboxVolumeName : String := "toolbox"
def projectVolumeName : String := "project"
def defaultProjectDir : String := "/project"

/-! ## Driver input data (PodConfig / ContainerConfig / ExecConfig)

Modelled from the spec: these types are declared in the repository's
`driver.go`, which is not under `src/`; the spec records them in §3
"DATA MODEL".  Field shapes follow the spec and the uses in `docker.go`. -/

structure ContainerVolumeTmpFS where
  size : Int
deriving Repr, DecidableEq, Inhabited

structure ContainerVolume where
  path : String
  tmpFS : Option ContainerVolumeTmpFS
deriving Repr, DecidableEq, Inhabited

structure ContainerConfig where
  image : String
  cmd : List String
  env : List (String × String)
  workingDir : String
  user : String
  name : String
  privileged : Bool
  volumes : List ContainerVolume
deriving Repr, DecidableEq, Inhabited

structure PodConfig where
  id : String
  taskID : String
  initVolumeDir : String
  containers : List ContainerConfig
deriving Repr, DecidableEq, Inhabited

/-- Exec request.  `hasStdout`/`hasStderr` model whether the caller supplied
the corresponding sink (`execConfig.Stdout != nil`). -/
structure ExecConfig where
  container : String
  cmd : List String
  env : List (String × String)
  workingDir : String
  user : String
  tty : Bool
  attachStdin : Bool
  hasStdout : Bool
  hasStderr : Bool
deriving Repr, DecidableEq, Inhabited

/-! ## Docker daemon state -/

inductive MountType where
  | volume
  | tmpfs
deriving Repr, DecidableEq, Inhabited

structure Mount where
  type : MountType
  source : String
  target : String
  readOnly : Bool
  tmpfsSize : Int
deriving Repr, DecidableEq, Inhabited

/-- A container known to the daemon (`dockertypes.Container` plus the create
configuration the driver supplied). -/
structure DCont where
  id : String
  labels : List (String × String)
  entrypoint : List String
  env : List String
  workingDir : String
  image : String
  privileged : Bool
  networkMode : String
  mounts : List Mount
  running : Bool
deriving Repr, DecidableEq, Inhabited

structure DVol where
  name : String
  labels : List (String × String)
deriving Repr, DecidableEq, Inhabited

/-- Daemon state plus an observation log of the driver's image fetches:
`fetchLog` records every `fetchImage(image, alwaysFetch)` invocation and
`pulls` every actual `ImagePull` issued. -/
structure DState where
  containers : List DCont
  volumes : List DVol
  images : List String
  nextID : Nat
  fetchLog : List (String × Bool)
  pulls : List String
deriving Repr, DecidableEq, Inhabited

def freshContainerID (st : DState) : String := "c" ++ toString st.nextID

def freshVolumeID (st : DState) : String := "v" ++ toString st.nextID

/-- `ContainerCreate`: register the container under a daemon-chosen ID. -/
def containerCreate (c : DCont) (st : DState) : DState × String :=
  let cid := freshContainerID st
  ({ st with containers := st.containers ++ [{ c with id := cid }],
             nextID := st.nextID + 1 }, cid)

/-- `ContainerRemove`. -/
def containerRemove (cid : String) (st : DState) : DState :=
  { st with containers := st.containers.filter (fun c => c.id != cid) }

/-- `ContainerStart`. -/
def containerStart (cid : String) (st : DState) : DState :=
  { st with containers :=
      st.containers.map (fun c => if c.id == cid then { c with running := true } else c) }

/-- `VolumeCreate` with a daemon-generated name. -/
def volumeCreate (labels : List (String × String)) (st : DState) : DState × String :=
  let name := freshVolumeID st
  ({ st with volumes := st.volumes ++ [{ name := name, labels := labels }],
             nextID := st.nextID + 1 }, name)

def lookupLabel (ls : List (String × String)) (k : String) : Option String :=
  (ls.find? (fun p => p.1 == k)).map Prod.snd

/-- Does a container/volume label set satisfy every `key=value` filter? -/
def matchesLabels (search : List (String × String)) (ls : List (String × String)) : Bool :=
  search.all (fun kv => lookupLabel ls kv.1 == some kv.2)

/-- `ContainerList` with label filters; running containers only unless `all`. -/
def containerList (search : List (String × String)) (all : Bool) (st : DState) : List DCont :=
  (if all then st.containers else st.containers.filter (fun c => c.running)).filter
    (fun c => matchesLabels search c.labels)

/-! ## The driver -/

/-- `DockerDriver` (the runtime client handle and logger are implicit in the
state-passing style; `initDockerConfig` carries no claim-relevant data and is
dropped). -/
structure DockerDriver where
  toolboxPath : String
  initImage : String
  executorID : String
  network : String
deriving Repr, DecidableEq, Inhabited

/-- Errors surfaced by the embedded operations.  The Go code produces plain
`errors.Errorf` values; the constructors name the distinct error sites.
`goPanicNilDeref` / `goPanicOutOfRange` model Go runtime panics. -/
inductive Err where
  | emptyContainerConfig
  | missingVolumeConfig
  | duplicateContainerIndex (i : Int)
  | countMismatch (expected got : Nat)
  | noContainers
  | containerNotFound (name : String)
  | cancelled
  | runtimeFailure (msg : String)
  | goPanicNilDeref
  | goPanicOutOfRange
deriving Repr, DecidableEq, Inhabited

/-- Split a character list at every occurrence of `c` (like
`strings.Split`). -/
def splitOnChar (c : Char) : List Char → List (List Char)
  | [] => [[]]
  | x :: xs =>
    let r := splitOnChar c xs
    if x = c then [] :: r
    else
      match r with
      | [] => [[x]]
      | y :: ys => (x :: y) :: ys

/-- Modelled from the spec: `registry.GetImageTagOrDigest` (package
`internal/services/executor/registry`, not under `src/`) returns the tag or
digest portion of the image reference, falling back to `"latest"` when
neither is present (spec §4.1). -/
def getImageTagOrDigest (image : String) : String :=
  let cs := image.data
  let atParts := splitOnChar '@' cs
  if atParts.length ≥ 2 then ⟨atParts.getLastD cs⟩
  else
    let seg := (splitOnChar '/' cs).getLastD cs
    let colonParts := splitOnChar ':' seg
    if colonParts.length ≥ 2 then ⟨colonParts.getLastD []⟩ else "latest"

/-- `DockerDriver.fetchImage` (docker.go:292).  Resolves the tag, lists local
images matching the exact reference, and pulls iff forced, tagged `latest`,
or absent.  The returned `Bool` records whether `ImagePull` was issued; the
registry-auth blob does not influence control flow and is not modelled. -/
def fetchImage (image : String) (alwaysFetch : Bool) (st : DState) : DState × Bool :=
  let tag := getImageTagOrDigest image
  let exs := st.images.contains image
  let st1 := { st with fetchLog := st.fetchLog ++ [(image, alwaysFetch)] }
  if alwaysFetch || tag == "latest" || !exs then
    ({ st1 with pulls := st1.pulls ++ [image],
                images := if st1.images.contains image then st1.images
                          else st1.images ++ [image] }, true)
  else (st1, false)

/-- `DockerDriver.createProjectVolume` (docker.go:99). -/
def createProjectVolume (d : DockerDriver) (podID : String) (st : DState) : DState × String :=
  volumeCreate [(agolaLabelKey, agolaLabelValue), (executorIDKey, d.executorID),
    (podIDKey, podID), (volumeNameKey, projectVolumeName)] st

/-- `DockerDriver.createToolboxVolume` (docker.go:114): fetch the init image
(not forced), create the labelled volume, seed it through a throwaway helper
container (created without labels, then removed; the tar copy itself has no
daemon-state footprint in the model). -/
def createToolboxVolume (d : DockerDriver) (podID : String) (st : DState) : DState × String :=
  let st1 := (fetchImage d.initImage false st).1
  let r := volumeCreate [(agolaLabelKey, agolaLabelValue), (executorIDKey, d.executorID),
    (podIDKey, podID), (volumeNameKey, toolboxVolumeName)] st1
  let helper : DCont :=
    { id := "", labels := [], entrypoint := ["cat"], env := [], workingDir := "",
      image := d.initImage, privileged := false, networkMode := "", mounts := [],
      running := false }
  let r2 := containerCreate helper r.1
  let st3 := containerStart r2.2 r2.1
  let st4 := containerRemove r2.2 st3
  (st4, r.2)

/-- `makeEnvSlice` (docker.go:753); Go map iteration order is modelled as the
list order of the environment pairs. -/
def makeEnvSlice (env : List (String × String)) : List String :=
  env.map (fun kv => kv.1 ++ "=" ++ kv.2)

/-- The label set stamped on a created pod container (docker.go:350). -/
def mkContainerLabels (d : DockerDriver) (pc : PodConfig) (index : Nat) (name : String) :
    List (String × String) :=
  [(agolaLabelKey, agolaLabelValue), (executorIDKey, d.executorID), (podIDKey, pc.id),
   (taskIDKey, pc.taskID), (containerIndexKey, itoa index), (containerNameKey, name)]

/-- Name resolution of docker.go:345. -/
def resolveName (cfg : ContainerConfig) (index : Nat) : String :=
  if cfg.name == "" && index == 0 then mainContainerName else cfg.name

/-- The tmpfs-mount loop of docker.go:392: any volume entry without a tmpfs
config aborts with `missing volume config`. -/
def tmpfsMounts : List ContainerVolume → Except Err (List Mount)
  | [] => .ok []
  | v :: rest =>
    match v.tmpFS with
    | some t =>
      match tmpfsMounts rest with
      | .ok ms => .ok ({ type := .tmpfs, source := "", target := v.path,
                         readOnly := false, tmpfsSize := t.size } :: ms)
      | .error e => .error e
    | none => .error .missingVolumeConfig

/-- `DockerDriver.createContainer` (docker.go:336). -/
def createContainer (d : DockerDriver) (index : Nat) (pc : PodConfig)
    (maincontainerID : String) (toolboxVolName projectVolName : String) (st : DState) :
    Except Err (DState × String) :=
  match pc.containers[index]? with
  | none => .error .goPanicOutOfRange
  | some cfg =>
    let st1 := (fetchImage cfg.image true st).1
    let name := resolveName cfg index
    let labels := mkContainerLabels d pc index name
    let networkMode := if index ≠ 0 then "container:" ++ maincontainerID else ""
    let baseMounts : List Mount :=
      if name ≠ "" then
        [{ type := .volume, source := toolboxVolName, target := pc.initVolumeDir,
           readOnly := true, tmpfsSize := 0 },
         { type := .volume, source := projectVolName, target := defaultProjectDir,
           readOnly := false, tmpfsSize := 0 }]
      else []
    match tmpfsMounts cfg.volumes with
    | .error e => .error e
    | .ok tms =>
      .ok (containerCreate
        { id := "", labels := labels, entrypoint := cfg.cmd, env := makeEnvSlice cfg.env,
          workingDir := cfg.workingDir, image := cfg.image, privileged := cfg.privileged,
          networkMode := networkMode, mounts := baseMounts ++ tms, running := false } st1)

/-- The container create/start loop of docker.go:197-213, recording the main
(index 0) container's ID as it is created. -/
def newPodCreateLoop (d : DockerDriver) (pc : PodConfig) (tv pv : String) :
    List Nat → String → DState → Except Err (DState × String)
  | [], mainID, st => .ok (st, mainID)
  | cindex :: rest, mainID, st =>
    match createContainer d cindex pc mainID tv pv st with
    | .error e => .error e
    | .ok (st1, cid) =>
      let mainID1 := if cindex == 0 then cid else mainID
      let st2 := containerStart cid st1
      newPodCreateLoop d pc tv pv rest mainID1 st2

/-- The `DockerContainer` wrapper (docker.go:565). -/
structure DockerContainer where
  index : Int
  container : DCont
deriving Repr, DecidableEq, Inhabited

/-- `ContainersByIndexSortFunc` (docker.go:570) as an ordering relation. -/
def containersByIndexLe (a b : DockerContainer) : Prop := a.index ≤ b.index

instance : DecidableRel containersByIndexLe := fun a b => Int.decLe a.index b.index

/-- `sort.Sort(MountSlice(...))`: sort mount points by destination. -/
def sortMounts (ms : List Mount) : List Mount :=
  ms.insertionSort (fun a b => strLe a.target b.target = true)

/-- `slices.SortFunc(pod.containers, ContainersByIndexSortFunc)`. -/
def sortContainersByIndex (cs : List DockerContainer) : List DockerContainer :=
  cs.insertionSort containersByIndexLe

/-- `DockerPod` (docker.go:552). -/
structure DockerPod where
  id : String
  executorID : String
  labels : List (String × String)
  containers : List DockerContainer
  containersMap : List (String × DockerContainer)
  toolboxVolumeName : String
  projectVolumeName : String
  initVolumeDir : String
deriving Repr, DecidableEq, Inhabited

/-- The search label set of docker.go:215. -/
def newPodSearchLabels (d : DockerDriver) (pc : PodConfig) : List (String × String) :=
  [(agolaLabelKey, agolaLabelValue), (executorIDKey, d.executorID), (podIDKey, pc.id),
   (taskIDKey, pc.taskID)]

/-- The discovery loop of docker.go:247-279: accumulate containers with a
parseable `containerIndex` label, failing on a duplicate index; containers
without a parseable index are skipped (and later trip the count check). -/
def newPodAssembleLoop : List DCont → DockerPod → List Int → Nat →
    Except Err (DockerPod × Nat)
  | [], pod, _seen, count => .ok (pod, count)
  | c :: rest, pod, seen, count =>
    match lookupLabel c.labels containerIndexKey with
    | none => newPodAssembleLoop rest pod seen count
    | some s =>
      match atoi s with
      | none => newPodAssembleLoop rest pod seen count
      | some cIndex =>
        if seen.contains cIndex then .error (.duplicateContainerIndex cIndex)
        else
          let dc : DockerContainer := ⟨cIndex, { c with mounts := sortMounts c.mounts }⟩
          let pod1 := { pod with containers := pod.containers ++ [dc] }
          let pod2 :=
            match lookupLabel c.labels containerNameKey with
            | some name => if name ≠ "" then
                { pod1 with containersMap := setAssoc pod1.containersMap name dc }
              else pod1
            | none => pod1
          newPodAssembleLoop rest pod2 (seen ++ [cIndex]) (count + 1)

/-- Discovery plus the count check of docker.go:280-282. -/
def newPodDiscover (listed : List DCont) (pod : DockerPod) : Except Err (DockerPod × Nat) :=
  match newPodAssembleLoop listed pod [] 0 with
  | .error e => .error e
  | .ok (pod1, count) =>
    if count ≠ listed.length then .error (.countMismatch listed.length count)
    else .ok (pod1, count)

/-- `DockerDriver.NewPod` (docker.go:182). -/
def newPod (d : DockerDriver) (pc : PodConfig) (st : DState) :
    Except Err (DState × DockerPod) :=
  if pc.containers.length == 0 then .error .emptyContainerConfig
  else
    let r1 := createToolboxVolume d pc.id st
    let r2 := createProjectVolume d pc.id r1.1
    match newPodCreateLoop d pc r1.2 r2.2 (List.range pc.containers.length) "" r2.1 with
    | .error e => .error e
    | .ok (st3, _mainID) =>
      let listed := containerList (newPodSearchLabels d pc) false st3
      if listed.length == 0 then .error .noContainers
      else
        let pod0 : DockerPod :=
          { id := pc.id, executorID := d.executorID, labels := [], containers := [],
            containersMap := [], toolboxVolumeName := r1.2, projectVolumeName := r2.2,
            initVolumeDir := pc.initVolumeDir }
        match newPodDiscover listed pod0 with
        | .error e => .error e
        | .ok (pod1, _count) =>
          let sorted := sortContainersByIndex pod1.containers
          match sorted with
          | [] => .error .goPanicOutOfRange
          | c0 :: _ =>
            .ok (st3,
              { pod1 with
                  containers := sorted,
                  containersMap := setAssoc pod1.containersMap "" c0 })

/-! ## GetPods (docker.go:422) -/

/-- First grouping pass (docker.go:440-462): create one empty `DockerPod`
per `podID` seen on a container owned by this executor.  The Go map
`podsMap` is modelled as an association list in first-insertion order. -/
def getPodsLoop1 (d : DockerDriver) : List DCont → List (String × DockerPod) →
    List (String × DockerPod)
  | [], m => m
  | c :: rest, m =>
    match lookupLabel c.labels executorIDKey with
    | none => getPodsLoop1 d rest m
    | some eid =>
      if eid ≠ d.executorID then getPodsLoop1 d rest m
      else
        match lookupLabel c.labels podIDKey with
        | none => getPodsLoop1 d rest m
        | some podID =>
          let m1 :=
            if (findAssoc m podID).isSome then m
            else m ++ [(podID,
              { id := podID, executorID := d.executorID, labels := [], containers := [],
                containersMap := [], toolboxVolumeName := "", projectVolumeName := "",
                initVolumeDir := "" })]
          getPodsLoop1 d rest m1

/-- Second pass (docker.go:464-512).  Faithful to the source: when the
`containerIndex` label is missing or unparseable the pod is deleted from
`podsMap` but the loop body does NOT `continue`; the subsequent
`podsMap[podID]` yields Go's nil pointer, which the next line dereferences —
modelled as `goPanicNilDeref`. -/
def getPodsLoop2 (d : DockerDriver) : List DCont → List (String × DockerPod) →
    Except Err (List (String × DockerPod))
  | [], m => .ok m
  | c :: rest, m =>
    match lookupLabel c.labels executorIDKey with
    | none => getPodsLoop2 d rest m
    | some eid =>
      if eid ≠ d.executorID then getPodsLoop2 d rest m
      else
        match lookupLabel c.labels podIDKey with
        | none => getPodsLoop2 d rest m
        | some podID =>
          let idxLabel := lookupLabel c.labels containerIndexKey
          let m1 := if idxLabel.isNone then eraseAssoc m podID else m
          let parsed := atoi (idxLabel.getD "")
          let m2 := if parsed.isNone then eraseAssoc m1 podID else m1
          let cIndex := parsed.getD 0
          match findAssoc m2 podID with
          | none => .error .goPanicNilDeref
          | some pod =>
            let dc : DockerContainer := ⟨cIndex, { c with mounts := sortMounts c.mounts }⟩
            let pod1 := { pod with containers := pod.containers ++ [dc] }
            let pod2 :=
              match lookupLabel c.labels containerNameKey with
              | some name => if name ≠ "" then
                  { pod1 with containersMap := setAssoc pod1.containersMap name dc }
                else pod1
              | none => pod1
            let pod3 :=
              if cIndex == 0 then
                { pod2 with
                    labels := c.labels.filter
                      (fun kv => strHasPfx kv.1 labelPfx && kv.1 != containerNameKey) }
              else pod2
            getPodsLoop2 d rest (setAssoc m2 podID pod3)

/-- Volume attachment pass (docker.go:514-540). -/
def getPodsVolumeLoop (d : DockerDriver) : List DVol → List (String × DockerPod) →
    List (String × DockerPod)
  | [], m => m
  | v :: rest, m =>
    match lookupLabel v.labels executorIDKey with
    | none => getPodsVolumeLoop d rest m
    | some eid =>
      if eid ≠ d.executorID then getPodsVolumeLoop d rest m
      else
        match lookupLabel v.labels podIDKey with
        | none => getPodsVolumeLoop d rest m
        | some podID =>
          match findAssoc m podID with
          | none => getPodsVolumeLoop d rest m
          | some pod =>
            match lookupLabel v.labels volumeNameKey with
            | some name =>
              if name == toolboxVolumeName then
                getPodsVolumeLoop d rest
                  (setAssoc m podID { pod with toolboxVolumeName := v.name })
              else if name == projectVolumeName then
                getPodsVolumeLoop d rest
                  (setAssoc m podID { pod with projectVolumeName := v.name })
              else getPodsVolumeLoop d rest m
            | none => getPodsVolumeLoop d rest m

/-- `DockerDriver.GetPods` (docker.go:422).  Lists containers (all or only
running) and volumes with no label filter, groups by pod ID, and sorts each
pod's containers by index.  The Go map iteration order of the final loop is
modelled as first-insertion order. -/
def getPods (d : DockerDriver) (all : Bool) (st : DState) : Except Err (List DockerPod) :=
  let containers := if all then st.containers else st.containers.filter (fun c => c.running)
  let m1 := getPodsLoop1 d containers []
  match getPodsLoop2 d containers m1 with
  | .error e => .error e
  | .ok m2 =>
    let m3 := getPodsVolumeLoop d st.volumes m2
    .ok (m3.map (fun p => { p.2 with containers := sortContainersByIndex p.2.containers }))

/-! ## Exec (docker.go:649) and Wait (docker.go:723) -/

/-- `filepath.Join` restricted to the two-argument form used by `Exec`
(cleaning of duplicate separators is modelled for the common shapes). -/
def filepathJoin (a b : String) : String :=
  if a == "" then b
  else if strHasSfx a "/" then a ++ b
  else a ++ "/" ++ b

/-- Minimal JSON string escaping (backslash and double quote). -/
def jsonEscape (s : String) : String :=
  String.join (s.data.map (fun c =>
    if c = '\\' then "\\\\" else if c = '"' then "\\\"" else String.singleton c))

def jsonQuote (s : String) : String := "\"" ++ jsonEscape s ++ "\""

/-- `json.Marshal` of a `map[string]string`: object with keys in sorted
order, as Go produces. -/
def jsonMarshalStringMap (env : List (String × String)) : String :=
  "\x7b" ++ String.intercalate ","
      ((env.insertionSort (fun a b => strLe a.1 b.1 = true)).map
        (fun kv => jsonQuote kv.1 ++ ":" ++ jsonQuote kv.2)) ++ "\x7d"

/-- The toolbox wrapper command built by `DockerPod.Exec` (docker.go:660). -/
def execToolboxCmd (initVolumeDir : String) (ec : ExecConfig) : List String :=
  [filepathJoin initVolumeDir "agola-toolbox", "exec", "-e",
   jsonMarshalStringMap ec.env, "-w", ec.workingDir, "--"] ++ ec.cmd

/-- The `ExecCreate` request `DockerPod.Exec` issues against the daemon. -/
structure DockerExecCreate where
  containerID : String
  cmd : List String
  tty : Bool
  attachStdin : Bool
  attachStdout : Bool
  attachStderr : Bool
  user : String
deriving Repr, DecidableEq, Inhabited

/-- `DockerPod.Exec` (docker.go:649): marshal the env, build the wrapped
command, resolve the target container by name, and create the exec. -/
def DockerPod.exec (dp : DockerPod) (ec : ExecConfig) : Except Err DockerExecCreate :=
  let cmd := execToolboxCmd dp.initVolumeDir ec
  match findAssoc dp.containersMap ec.container with
  | none => .error (.containerNotFound ec.container)
  | some target =>
    .ok { containerID := target.container.id, cmd := cmd, tty := ec.tty,
          attachStdin := ec.attachStdin, attachStdout := ec.hasStdout,
          attachStderr := ec.hasStderr, user := ec.user }

/-- One `ContainerExecInspect` response. -/
structure ExecInspect where
  running : Bool
  exitCode : Int
deriving Repr, DecidableEq, Inhabited

/-- Outcome of `DockerContainerExec.Wait`: the returned exit code and error,
plus whether the attached hijacked response was closed on that path. -/
structure WaitResult where
  exitCode : Int
  err : Option Err
  hrespClosed : Bool
deriving Repr, DecidableEq, Inhabited

/-- The inspect-poll loop of docker.go:732-742 over a prescribed sequence of
inspect responses; `none` models the loop never observing a stopped exec
(Go would poll forever). -/
def waitInspectLoop : List (Except Err ExecInspect) → Option (Except Err Int)
  | [] => none
  | .error e :: _ => some (.error e)
  | .ok r :: rest => if !r.running then some (.ok r.exitCode) else waitInspectLoop rest

/-- `DockerContainerExec.Wait` (docker.go:723).  `ctxCancelled` is whether the
caller's context fires before the copy-completion channel.  On cancellation
the function returns `(0, ctx.Err())` at once — without reaching the
`e.hresp.Close()` at docker.go:744.  An inspect error returns `(-1, err)`,
also before the close; only the normal path closes the connection. -/
def waitRun (ctxCancelled : Bool) (inspects : List (Except Err ExecInspect)) :
    Option WaitResult :=
  if ctxCancelled then some { exitCode := 0, err := some .cancelled, hrespClosed := false }
  else
    match waitInspectLoop inspects with
    | none => none
    | some (.error e) => some { exitCode := -1, err := some e, hrespClosed := false }
    | some (.ok code) => some { exitCode := code, err := none, hrespClosed := true }

/-! ## Stop and Remove (docker.go:586, 600) -/

/-- The calls `DockerPod.Remove` issues: one forced `ContainerRemove` per
member container, then a forced `VolumeRemove` for each of the two recorded
volume names that is non-empty (docker.go:600-623). -/
structure RemoveCalls where
  containerRemovals : List (String × Bool)
  volumeRemovals : List (String × Bool)
deriving Repr, DecidableEq, Inhabited

def DockerPod.removeCalls (dp : DockerPod) : RemoveCalls :=
  { containerRemovals := dp.containers.map (fun c => (c.container.id, true)),
    volumeRemovals :=
      (if dp.toolboxVolumeName ≠ "" then [(dp.toolboxVolumeName, true)] else []) ++
      (if dp.projectVolumeName ≠ "" then [(dp.projectVolumeName, true)] else []) }

/-- The calls `DockerPod.Stop` issues (docker.go:586-598): a graceful
`ContainerStop` with a 1-second timeout per member container. -/
def DockerPod.stopCalls (dp : DockerPod) : List (String × Nat) :=
  dp.containers.map (fun c => (c.container.id, 1))

/-! ## Claim C2: Exec always wraps the user command in the toolbox helper -/

/-- C2: for every pod and every `ExecConfig`, a successful `Exec` creates the
exec with the wrapped command
`[<initVolumeDir>/agola-toolbox, "exec", "-e", JSON(env), "-w", wd, "--"] ++ cmd`
inside the resolved target container, and never with the user command
directly. -/
theorem c2_exec_always_wraps (dp : DockerPod) (ec : ExecConfig) (r : DockerExecCreate)
    (h : dp.exec ec = .ok r) :
    r.cmd = [filepathJoin dp.initVolumeDir "agola-toolbox", "exec", "-e",
      jsonMarshalStringMap ec.env, "-w", ec.workingDir, "--"] ++ ec.cmd ∧
    r.cmd ≠ ec.cmd ∧
    ∀ tc, findAssoc dp.containersMap ec.container = some tc →
      r.containerID = tc.container.id := by
  unfold DockerPod.exec at h
  cases hf : findAssoc dp.containersMap ec.container with
  | none => rw [hf] at h; exact absurd h (by simp)
  | some target =>
    rw [hf] at h
    simp only [Except.ok.injEq] at h
    subst h
    refine ⟨rfl, ?_, ?_⟩
    · intro heq
      have hlen := congrArg List.length heq
      simp only [execToolboxCmd] at hlen
      simp at hlen
      omega
    · intro tc htc
      cases htc
      rfl

def c2cont : DCont :=
  { id := "cid0", labels := [], entrypoint := [], env := [], workingDir := "",
    image := "img", privileged := false, networkMode := "", mounts := [],
    running := true }

def c2dc : DockerContainer := ⟨0, c2cont⟩

def c2pod : DockerPod :=
  { id := "p1", executorID := "ex1", labels := [], containers := [c2dc],
    containersMap := [("", c2dc)], toolboxVolumeName := "tv",
    projectVolumeName := "pv", initVolumeDir := "/mnt/agola" }

def c2ec : ExecConfig :=
  { container := "", cmd := ["echo", "hi"], env := [("A", "b")], workingDir := "/w",
    user := "", tty := false, attachStdin := false, hasStdout := true, hasStderr := true }

def c2res : DockerExecCreate := (c2pod.exec c2ec).toOption.getD default

theorem c2_exec_always_wraps_witness :
    c2res.cmd = ["/mnt/agola/agola-toolbox", "exec", "-e", "\x7b\"A\":\"b\"\x7d", "-w",
      "/w", "--", "echo", "hi"] ∧ c2res.cmd ≠ c2ec.cmd := by
  have h := c2_exec_always_wraps c2pod c2ec c2res (by rfl)
  exact ⟨h.1.trans (by rfl), h.2.1⟩

/-! ## Claim C4: Wait under context cancellation -/

/-- C4 counterexample: at the concrete input where the caller's context is
cancelled while streaming, `Wait` does return the `Cancelled` error, but the
attached duplex connection is NOT closed on that path (the claim asserts it
is closed). -/
theorem c4_counterexample :
    (waitRun true []).map (fun w => (w.err, w.hrespClosed)) =
      some (some Err.cancelled, false) := rfl

/-- C4 (amended): if the caller's context is cancelled while an exec session
is streaming, `Wait` returns the `Cancelled` error immediately (with exit
code 0) but leaves the attached duplex connection open; the connection is
closed only on the normal path, after an exec inspection reports
not-running. -/
theorem c4_cancel_returns_immediately_without_close
    (inspects : List (Except Err ExecInspect)) :
    waitRun true inspects =
      some { exitCode := 0, err := some Err.cancelled, hrespClosed := false } ∧
    (∀ code, waitInspectLoop inspects = some (.ok code) →
      waitRun false inspects = some { exitCode := code, err := none, hrespClosed := true }) := by
  constructor
  · rfl
  · intro code hloop
    simp [waitRun, hloop]

theorem c4_cancel_returns_immediately_without_close_witness :
    waitRun true [Except.ok { running := false, exitCode := 7 }] =
      some { exitCode := 0, err := some Err.cancelled, hrespClosed := false } ∧
    waitRun false [Except.ok { running := false, exitCode := 7 }] =
      some { exitCode := 7, err := none, hrespClosed := true } := by
  have h := c4_cancel_returns_immediately_without_close
    [Except.ok { running := false, exitCode := 7 }]
  exact ⟨h.1, h.2 7 (by rfl)⟩

/-! ## Claim C5: GetPods on a container missing the index label -/

def c5drv : DockerDriver :=
  { toolboxPath := "/tb", initImage := "initimg:1", executorID := "ex1", network := "" }

/-- A well-formed container of pod `pA`. -/
def c5goodCont : DCont :=
  { id := "g1",
    labels := [(agolaLabelKey, agolaLabelValue), (executorIDKey, "ex1"), (podIDKey, "pA"),
      (taskIDKey, "tA"), (containerIndexKey, "0"), (containerNameKey, "main")],
    entrypoint := [], env := [], workingDir := "", image := "x", privileged := false,
    networkMode := "", mounts := [], running := true }

/-- A container of pod `pB` owned by this executor that carries a `podID`
label but no `containerIndex` label. -/
def c5badCont : DCont :=
  { id := "b1", labels := [(executorIDKey, "ex1"), (podIDKey, "pB")],
    entrypoint := [], env := [], workingDir := "", image := "x", privileged := false,
    networkMode := "", mounts := [], running := true }

def c5state : DState :=
  { containers := [c5goodCont, c5badCont], volumes := [], images := [], nextID := 0,
    fetchLog := [], pulls := [] }

/-- C5 (code bug): on a listing where a container owned by this executor has
a `podID` label but no parseable `containerIndex` label, `GetPods` does not
silently drop that pod and return the remaining ones — after `delete`-ing the
pod from `podsMap` the loop body continues (there is no `continue` in
docker.go:475-484), reads the now-absent map entry (Go: nil pointer) and
dereferences it at docker.go:491, so the whole call panics. -/
theorem c5_getpods_nil_deref :
    getPods c5drv true c5state = .error Err.goPanicNilDeref := rfl

/-! ## Claim C10: Remove skips volume slots with an empty recorded name -/

/-- C10: `Remove` force-removes every member container, and issues a volume
removal exactly for the recorded volume names that are non-empty: no removal
call carries an empty name, every issued name is one of the two recorded
slots, and each non-empty slot is removed (forced). -/
theorem c10_remove_only_nonempty_volumes (dp : DockerPod) :
    (∀ v ∈ dp.removeCalls.volumeRemovals, v.1 ≠ "" ∧ v.2 = true) ∧
    dp.removeCalls.containerRemovals = dp.containers.map (fun c => (c.container.id, true)) ∧
    (∀ v ∈ dp.removeCalls.volumeRemovals,
      v.1 = dp.toolboxVolumeName ∨ v.1 = dp.projectVolumeName) ∧
    (dp.toolboxVolumeName ≠ "" → (dp.toolboxVolumeName, true) ∈ dp.removeCalls.volumeRemovals) ∧
    (dp.projectVolumeName ≠ "" → (dp.projectVolumeName, true) ∈ dp.removeCalls.volumeRemovals) := by
  unfold DockerPod.removeCalls
  by_cases ht : dp.toolboxVolumeName = "" <;> by_cases hp : dp.projectVolumeName = "" <;>
    simp [ht, hp]

def c10pod : DockerPod :=
  { id := "p1", executorID := "ex1", labels := [], containers := [], containersMap := [],
    toolboxVolumeName := "", projectVolumeName := "pvol", initVolumeDir := "" }

theorem c10_remove_only_nonempty_volumes_witness :
    (("" , true) ∉ c10pod.removeCalls.volumeRemovals) ∧
    ("pvol", true) ∈ c10pod.removeCalls.volumeRemovals := by
  have h := c10_remove_only_nonempty_volumes c10pod
  constructor
  · intro hmem
    exact absurd rfl (h.1 _ hmem).1
  · exact h.2.2.2.2 (by decide)

/-! ## Projection lemmas for the daemon operations -/

theorem fetchImage_fst_fetchLog (img : String) (f : Bool) (st : DState) :
    (fetchImage img f st).1.fetchLog = st.fetchLog ++ [(img, f)] := by
  simp only [fetchImage]
  split <;> rfl

theorem fetchImage_fst_containers (img : String) (f : Bool) (st : DState) :
    (fetchImage img f st).1.containers = st.containers := by
  simp only [fetchImage]
  split <;> rfl

theorem fetchImage_fst_nextID (img : String) (f : Bool) (st : DState) :
    (fetchImage img f st).1.nextID = st.nextID := by
  simp only [fetchImage]
  split <;> rfl

theorem createToolboxVolume_fetchLog (d : DockerDriver) (pid : String) (st : DState) :
    (createToolboxVolume d pid st).1.fetchLog = st.fetchLog ++ [(d.initImage, false)] := by
  simp [createToolboxVolume, volumeCreate, containerCreate, containerStart,
    containerRemove, fetchImage_fst_fetchLog]

theorem createProjectVolume_fetchLog (d : DockerDriver) (pid : String) (st : DState) :
    (createProjectVolume d pid st).1.fetchLog = st.fetchLog := rfl

/-- Getting an element of `(range l.length)` and reading `l` there is just
mapping over `l`. -/
theorem map_get_range {α β : Type} [Inhabited α] (l : List α) (f : α → β) :
    (List.range l.length).map (fun i => f ((l[i]?).getD default)) = l.map f := by
  induction l with
  | nil => rfl
  | cons a t ih =>
    simp only [List.length_cons, List.range_succ_eq_map, List.map_cons, List.map_map]
    refine congrArg₂ _ (by simp) ?_
    rw [← ih]
    apply List.map_congr_left
    intro i _
    simp [Function.comp]

/-! ## tmpfs volume checking (docker.go:392-404) -/

theorem tmpfsMounts_error {vols : List ContainerVolume}
    (hv : ∃ v ∈ vols, v.tmpFS = none) :
    tmpfsMounts vols = .error Err.missingVolumeConfig := by
  induction vols with
  | nil => obtain ⟨v, hv1, _⟩ := hv; cases hv1
  | cons v rest ih =>
    obtain ⟨w, hw, hnone⟩ := hv
    cases List.mem_cons.mp hw with
    | inl heq =>
      subst heq
      simp [tmpfsMounts, hnone]
    | inr hmem =>
      cases hvt : v.tmpFS with
      | none => simp [tmpfsMounts, hvt]
      | some t => simp [tmpfsMounts, hvt, ih ⟨w, hmem, hnone⟩]

theorem tmpfsMounts_ok {vols : List ContainerVolume}
    (hv : ∀ v ∈ vols, v.tmpFS ≠ none) :
    ∃ ms, tmpfsMounts vols = .ok ms := by
  induction vols with
  | nil => exact ⟨[], rfl⟩
  | cons v rest ih =>
    cases hvt : v.tmpFS with
    | none => exact absurd hvt (hv v (List.mem_cons_self v rest))
    | some t =>
      obtain ⟨ms, hms⟩ := ih (fun w hw => hv w (List.mem_cons_of_mem v hw))
      refine ⟨{ type := .tmpfs, source := "", target := v.path, readOnly := false, tmpfsSize := t.size } :: ms, ?_⟩
      simp [tmpfsMounts, hvt, hms]

/-! ## createContainer success/failure shapes -/

theorem createContainer_fetchLog {d : DockerDriver} {i : Nat} {pc : PodConfig}
    {m tv pv : String} {st st2 : DState} {cid : String}
    (h : createContainer d i pc m tv pv st = .ok (st2, cid)) :
    st2.fetchLog = st.fetchLog ++ [(((pc.containers[i]?).getD default).image, true)] := by
  unfold createContainer at h
  cases hcfg : pc.containers[i]? with
  | none => rw [hcfg] at h; exact absurd h (by simp)
  | some cfg =>
    rw [hcfg] at h
    dsimp only at h
    cases htm : tmpfsMounts cfg.volumes with
    | error e => rw [htm] at h; exact absurd h (by simp)
    | ok tms =>
      rw [htm] at h
      simp only [Except.ok.injEq] at h
      rw [Prod.ext_iff] at h
      dsimp only at h
      rw [← h.1]
      simp [containerCreate, fetchImage_fst_fetchLog]

theorem createContainer_error_of_badVolume {d : DockerDriver} {i : Nat} {pc : PodConfig}
    {m tv pv : String} {st : DState} {cfg : ContainerConfig}
    (hcfg : pc.containers[i]? = some cfg) (hv : ∃ v ∈ cfg.volumes, v.tmpFS = none) :
    createContainer d i pc m tv pv st = .error Err.missingVolumeConfig := by
  unfold createContainer
  rw [hcfg]
  dsimp only
  rw [tmpfsMounts_error hv]

theorem createContainer_ok_of_goodVolumes (d : DockerDriver) (m tv pv : String)
    (st : DState) {i : Nat} {pc : PodConfig} {cfg : ContainerConfig}
    (hcfg : pc.containers[i]? = some cfg) (hv : ∀ v ∈ cfg.volumes, v.tmpFS ≠ none) :
    ∃ st2 cid, createContainer d i pc m tv pv st = .ok (st2, cid) := by
  unfold createContainer
  rw [hcfg]
  dsimp only
  obtain ⟨ms, hms⟩ := tmpfsMounts_ok hv
  rw [hms]
  exact ⟨_, _, rfl⟩

/-! ## The create loop: fetch log and failure on bad volumes -/

theorem newPodCreateLoop_fetchLog {d : DockerDriver} {pc : PodConfig} {tv pv : String} :
    ∀ {idxs : List Nat} {m : String} {st st2 : DState} {m2 : String},
      newPodCreateLoop d pc tv pv idxs m st = .ok (st2, m2) →
      st2.fetchLog = st.fetchLog ++
        idxs.map (fun i => (((pc.containers[i]?).getD default).image, true)) := by
  intro idxs
  induction idxs with
  | nil =>
    intro m st st2 m2 h
    simp only [newPodCreateLoop, Except.ok.injEq, Prod.mk.injEq] at h
    simp [← h.1]
  | cons i rest ih =>
    intro m st st2 m2 h
    simp only [newPodCreateLoop] at h
    cases hc : createContainer d i pc m tv pv st with
    | error e => rw [hc] at h; exact absurd h (by simp)
    | ok p =>
      rw [hc] at h
      obtain ⟨st1, cid⟩ := p
      dsimp only at h
      have hstep := ih h
      have hcs : (containerStart cid st1).fetchLog = st1.fetchLog := rfl
      rw [hcs] at hstep
      rw [hstep, createContainer_fetchLog hc]
      simp

theorem newPodCreateLoop_error_of_badVolume {d : DockerDriver} {pc : PodConfig}
    {tv pv : String} :
    ∀ {idxs : List Nat} {m : String} {st : DState},
      (∀ i ∈ idxs, i < pc.containers.length) →
      (∃ i ∈ idxs, ∃ cfg, pc.containers[i]? = some cfg ∧ ∃ v ∈ cfg.volumes, v.tmpFS = none) →
      newPodCreateLoop d pc tv pv idxs m st = .error Err.missingVolumeConfig := by
  intro idxs
  induction idxs with
  | nil =>
    intro m st _ hbad
    obtain ⟨i, hi, _⟩ := hbad
    cases hi
  | cons i rest ih =>
    intro m st hb hbad
    by_cases hbadHead : ∃ cfg, pc.containers[i]? = some cfg ∧ ∃ v ∈ cfg.volumes, v.tmpFS = none
    · obtain ⟨cfg, hcfg, hv⟩ := hbadHead
      simp only [newPodCreateLoop]
      rw [createContainer_error_of_badVolume hcfg hv]
    · have hiLt : i < pc.containers.length := hb i (List.mem_cons_self i rest)
      obtain ⟨cfg, hcfg⟩ : ∃ cfg, pc.containers[i]? = some cfg :=
        ⟨_, List.getElem?_eq_getElem hiLt⟩
      have hgood : ∀ v ∈ cfg.volumes, v.tmpFS ≠ none := by
        intro v hv hnone
        exact hbadHead ⟨cfg, hcfg, v, hv, hnone⟩
      have hbadRest : ∃ j ∈ rest, ∃ cfg2, pc.containers[j]? = some cfg2 ∧
          ∃ v ∈ cfg2.volumes, v.tmpFS = none := by
        obtain ⟨j, hj, cfg2, hcfg2, hv2⟩ := hbad
        rcases List.mem_cons.mp hj with heq | hmem
        · subst heq
          rw [hcfg] at hcfg2
          injection hcfg2 with hceq
          subst hceq
          exact absurd ⟨cfg, hcfg, hv2⟩ hbadHead
        · exact ⟨j, hmem, cfg2, hcfg2, hv2⟩
      obtain ⟨st2, cid, hok⟩ := createContainer_ok_of_goodVolumes d m tv pv st hcfg hgood
      simp only [newPodCreateLoop]
      rw [hok]
      dsimp only
      exact ih (fun j hj => hb j (List.mem_cons_of_mem i hj)) hbadRest

/-- A successful `newPod` run went through a successful create loop whose
final state is the returned one. -/
theorem newPod_ok_loop {d : DockerDriver} {pc : PodConfig} {st : DState}
    {r : DState × DockerPod} (h : newPod d pc st = .ok r) :
    ∃ m2,
      newPodCreateLoop d pc (createToolboxVolume d pc.id st).2
        (createProjectVolume d pc.id (createToolboxVolume d pc.id st).1).2
        (List.range pc.containers.length) ""
        (createProjectVolume d pc.id (createToolboxVolume d pc.id st).1).1
        = .ok (r.1, m2) := by
  unfold newPod at h
  split at h
  · exact absurd h (by simp)
  · dsimp only at h
    cases hl : newPodCreateLoop d pc (createToolboxVolume d pc.id st).2
        (createProjectVolume d pc.id (createToolboxVolume d pc.id st).1).2
        (List.range pc.containers.length) ""
        (createProjectVolume d pc.id (createToolboxVolume d pc.id st).1).1 with
    | error e => rw [hl] at h; exact absurd h (by simp)
    | ok p =>
      obtain ⟨st3, m2⟩ := p
      rw [hl] at h
      dsimp only at h
      refine ⟨m2, ?_⟩
      split at h
      · exact absurd h (by simp)
      · split at h
        · exact absurd h (by simp)
        · split at h
          · exact absurd h (by simp)
          · simp only [Except.ok.injEq] at h
            subst h
            rfl

/-! ## Claim C1: image pull policy -/

/-- C1: `fetchImage` issues a pull iff forced, tagged `latest`, or no local
image matches the exact reference (otherwise it returns without pulling);
and a successful `NewPod` invokes `fetchImage` exactly once per task
container with `force=true` and once for the init image with `force=false`
(the recorded fetch log is exactly the init-image entry followed by one
forced entry per declared container, in order). -/
theorem c1_image_pull_policy :
    (∀ (image : String) (force : Bool) (st : DState),
      (fetchImage image force st).2 = true ↔
        (force = true ∨ getImageTagOrDigest image = "latest" ∨
          st.images.contains image = false)) ∧
    (∀ (d : DockerDriver) (pc : PodConfig) (st : DState) (r : DState × DockerPod),
      newPod d pc st = .ok r →
      r.1.fetchLog = st.fetchLog ++
        (d.initImage, false) :: pc.containers.map (fun c => (c.image, true))) := by
  constructor
  · intro image force st
    have hb : (fetchImage image force st).2
        = (force || (getImageTagOrDigest image == "latest") || !(st.images.contains image)) := by
      simp only [fetchImage]
      split <;> simp_all
    rw [hb]
    simp only [Bool.or_eq_true, beq_iff_eq, Bool.not_eq_true']
    tauto
  · intro d pc st r h
    obtain ⟨m2, hl⟩ := newPod_ok_loop h
    have hlog := newPodCreateLoop_fetchLog hl
    rw [createProjectVolume_fetchLog, createToolboxVolume_fetchLog] at hlog
    rw [hlog, map_get_range pc.containers (fun c => (c.image, true))]
    simp

def c1drv : DockerDriver :=
  { toolboxPath := "/tb", initImage := "initimg:1", executorID := "ex1", network := "" }

def c1cfg : ContainerConfig :=
  { image := "alpine:3", cmd := ["sh"], env := [], workingDir := "", user := "",
    name := "", privileged := false, volumes := [] }

def c1pc : PodConfig :=
  { id := "p1", taskID := "t1", initVolumeDir := "/mnt/agola", containers := [c1cfg] }

def c1st : DState :=
  { containers := [], volumes := [], images := [], nextID := 0, fetchLog := [], pulls := [] }

def c1stCached : DState :=
  { containers := [], volumes := [], images := ["img:1"], nextID := 0, fetchLog := [],
    pulls := [] }

theorem c1_image_pull_policy_witness :
    (fetchImage "img:1" false c1stCached).2 = false ∧
    ((newPod c1drv c1pc c1st).toOption.getD default).1.fetchLog =
      [("initimg:1", false), ("alpine:3", true)] := by
  constructor
  · have hA := c1_image_pull_policy.1 "img:1" false c1stCached
    cases hfb : (fetchImage "img:1" false c1stCached).2
    · rfl
    · have hR := hA.mp hfb
      exact absurd hR (by decide)
  · have hB := c1_image_pull_policy.2 c1drv c1pc c1st
      ((newPod c1drv c1pc c1st).toOption.getD default) (by rfl)
    exact hB.trans (by rfl)

/-! ## Claim C9: NewPod BadInput failures -/

/-- C9: `NewPod` fails on an empty container list, and fails whenever any
container config contains a volume entry that is not a tmpfs volume; in both
cases only an error (no pod) is returned. -/
theorem c9_newpod_bad_input :
    (∀ (d : DockerDriver) (pc : PodConfig) (st : DState),
      pc.containers = [] → newPod d pc st = .error Err.emptyContainerConfig) ∧
    (∀ (d : DockerDriver) (pc : PodConfig) (st : DState) (cfg : ContainerConfig)
      (v : ContainerVolume), cfg ∈ pc.containers → v ∈ cfg.volumes → v.tmpFS = none →
      newPod d pc st = .error Err.missingVolumeConfig) := by
  constructor
  · intro d pc st hempty
    unfold newPod
    rw [hempty]
    rfl
  · intro d pc st cfg v hcfg hv hnone
    obtain ⟨⟨i, hilt⟩, hg⟩ := List.mem_iff_get.mp hcfg
    have hgetq : pc.containers[i]? = some cfg := by
      rw [List.getElem?_eq_getElem hilt]
      rw [← hg]
      rfl
    have hne : (pc.containers.length == 0) = false := by
      simp only [beq_eq_false_iff_ne]
      omega
    have hloop := @newPodCreateLoop_error_of_badVolume d pc
      (createToolboxVolume d pc.id st).2
      (createProjectVolume d pc.id (createToolboxVolume d pc.id st).1).2
      (List.range pc.containers.length) ""
      (createProjectVolume d pc.id (createToolboxVolume d pc.id st).1).1
      (fun j hj => List.mem_range.mp hj)
      ⟨i, List.mem_range.mpr hilt, cfg, hgetq, v, hv, hnone⟩
    unfold newPod
    rw [hne]
    dsimp only
    rw [hloop]
    rfl

def c9pcEmpty : PodConfig :=
  { id := "p9", taskID := "t9", initVolumeDir := "/mnt/agola", containers := [] }

def c9badVol : ContainerVolume := { path := "/data", tmpFS := none }

def c9badCfg : ContainerConfig :=
  { image := "alpine:3", cmd := ["sh"], env := [], workingDir := "", user := "",
    name := "", privileged := false, volumes := [c9badVol] }

def c9pcBadVol : PodConfig :=
  { id := "p9", taskID := "t9", initVolumeDir := "/mnt/agola", containers := [c9badCfg] }

theorem c9_newpod_bad_input_witness :
    newPod c1drv c9pcEmpty c1st = .error Err.emptyContainerConfig ∧
    newPod c1drv c9pcBadVol c1st = .error Err.missingVolumeConfig := by
  constructor
  · exact c9_newpod_bad_input.1 c1drv c9pcEmpty c1st rfl
  · exact c9_newpod_bad_input.2 c1drv c9pcBadVol c1st c9badCfg c9badVol
      (List.mem_cons_self c9badCfg []) (List.mem_cons_self c9badVol []) rfl

/-! ## Claim C3: NewPod re-discovery checks -/

/-- Does a listed container carry a `containerIndex` label that
`strconv.Atoi` can parse? -/
def hasParseableIndex (c : DCont) : Bool :=
  match lookupLabel c.labels containerIndexKey with
  | none => false
  | some s => (atoi s).isSome

/-- The parsed indices of the listed containers, in listing order. -/
def parsedIndices (listed : List DCont) : List Int :=
  listed.filterMap (fun c => (lookupLabel c.labels containerIndexKey).bind atoi)

/-- A container of the re-discovery listing that matches the pod's full label
set but carries container index 5 (a stale leftover): used to exercise the
re-discovery against a listing that disagrees with the declaration. -/
def c3stale : DCont :=
  { id := "old9",
    labels := [(agolaLabelKey, agolaLabelValue), (executorIDKey, "ex1"), (podIDKey, "p1"),
      (taskIDKey, "t1"), (containerIndexKey, "5")],
    entrypoint := [], env := [], workingDir := "", image := "x", privileged := false,
    networkMode := "", mounts := [], running := true }

def c3st : DState :=
  { containers := [c3stale], volumes := [], images := [], nextID := 0, fetchLog := [],
    pulls := [] }

/-- C3 counterexample: with one declared container but a listing of two
containers (the created index-0 one plus a stale index-5 one carrying the
same label set), `NewPod` succeeds and returns a pod of two containers with
indices `[0, 5]` — the listed count (2) is NOT required to equal the
declared count (1), nor the indices to be the declared set `{0}`. -/
theorem c3_counterexample :
    (newPod c1drv c1pc c3st).isOk = true ∧
    ((newPod c1drv c1pc c3st).toOption.getD default).2.containers.map
      (fun dc => dc.index) = [0, 5] ∧
    c1pc.containers.length = 1 := by
  refine ⟨rfl, rfl, rfl⟩

theorem newPodAssembleLoop_ok_iff :
    ∀ (listed : List DCont) (pod : DockerPod) (seen : List Int) (count : Nat),
      (∃ r, newPodAssembleLoop listed pod seen count = .ok r) ↔
        ((∀ i ∈ parsedIndices listed, i ∉ seen) ∧ (parsedIndices listed).Nodup) := by
  intro listed
  induction listed with
  | nil =>
    intro pod seen count
    simp [newPodAssembleLoop, parsedIndices]
  | cons c rest ih =>
    intro pod seen count
    cases hlk : lookupLabel c.labels containerIndexKey with
    | none =>
      have hpi : parsedIndices (c :: rest) = parsedIndices rest := by
        simp [parsedIndices, hlk]
      rw [hpi]
      simp only [newPodAssembleLoop, hlk]
      exact ih pod seen count
    | some s =>
      cases hat : atoi s with
      | none =>
        have hpi : parsedIndices (c :: rest) = parsedIndices rest := by
          simp [parsedIndices, hlk, hat]
        rw [hpi]
        simp only [newPodAssembleLoop, hlk, hat]
        exact ih pod seen count
      | some i =>
        have hpi : parsedIndices (c :: rest) = i :: parsedIndices rest := by
          simp [parsedIndices, hlk, hat]
        rw [hpi]
        simp only [newPodAssembleLoop, hlk, hat]
        by_cases hmem : seen.contains i
        · rw [if_pos hmem]
          have himem : i ∈ seen := by
            simpa using hmem
          constructor
          · rintro ⟨r, hr⟩
            exact absurd hr (by simp)
          · rintro ⟨hall, _⟩
            exact absurd himem (hall i (List.mem_cons_self i _))
        · rw [if_neg hmem]
          have hnimem : i ∉ seen := by
            simpa using hmem
          rw [ih]
          constructor
          · rintro ⟨hall, hnd⟩
            have hip : i ∉ parsedIndices rest := fun hip =>
              (hall i hip) (List.mem_append.mpr (Or.inr (List.mem_singleton.mpr rfl)))
            refine ⟨?_, List.nodup_cons.mpr ⟨hip, hnd⟩⟩
            intro j hj
            rcases List.mem_cons.mp hj with rfl | hj2
            · exact hnimem
            · intro hjs
              exact (hall j hj2) (List.mem_append.mpr (Or.inl hjs))
          · rintro ⟨hall, hnd⟩
            have hni := (List.nodup_cons.mp hnd).1
            refine ⟨?_, (List.nodup_cons.mp hnd).2⟩
            intro j hj hjmem
            rcases List.mem_append.mp hjmem with hjs | hjsing
            · exact (hall j (List.mem_cons_of_mem i hj)) hjs
            · rw [List.mem_singleton] at hjsing
              subst hjsing
              exact hni hj

theorem newPodAssembleLoop_count :
    ∀ (listed : List DCont) (pod : DockerPod) (seen : List Int) (count : Nat)
      (r : DockerPod × Nat), newPodAssembleLoop listed pod seen count = .ok r →
      r.2 = count + listed.countP hasParseableIndex := by
  intro listed
  induction listed with
  | nil =>
    intro pod seen count r h
    simp only [newPodAssembleLoop, Except.ok.injEq] at h
    simp [← h]
  | cons c rest ih =>
    intro pod seen count r h
    cases hlk : lookupLabel c.labels containerIndexKey with
    | none =>
      simp only [newPodAssembleLoop, hlk] at h
      rw [ih _ _ _ _ h]
      have hcp : hasParseableIndex c = false := by
        simp [hasParseableIndex, hlk]
      simp [List.countP_cons, hcp]
    | some s =>
      simp only [newPodAssembleLoop, hlk] at h
      cases hat : atoi s with
      | none =>
        simp only [hat] at h
        rw [ih _ _ _ _ h]
        have hcp : hasParseableIndex c = false := by
          simp [hasParseableIndex, hlk, hat]
        simp [List.countP_cons, hcp]
      | some i =>
        simp only [hat] at h
        by_cases hmem : seen.contains i
        · rw [if_pos hmem] at h
          exact absurd h (by simp)
        · rw [if_neg hmem] at h
          rw [ih _ _ _ _ h]
          have hcp : hasParseableIndex c = true := by
            simp [hasParseableIndex, hlk, hat]
          simp [List.countP_cons, hcp]
          omega

/-- C3 (amended): the re-discovery step of `NewPod` succeeds exactly when
every listed container for the pod's label set carries a parseable
`containerIndex` label and the parsed indices are pairwise distinct; in
particular a duplicate discovered index (or an unparseable index label)
makes the whole call fail.  The listed count is NOT compared against the
declared container count, nor the indices against the declared index set. -/
theorem c3_rediscovery_requires_parseable_distinct_indices
    (listed : List DCont) (pod : DockerPod) :
    (newPodDiscover listed pod).isOk = true ↔
      ((∀ c ∈ listed, hasParseableIndex c = true) ∧ (parsedIndices listed).Nodup) := by
  unfold newPodDiscover
  cases hal : newPodAssembleLoop listed pod [] 0 with
  | error e =>
    have hiff := newPodAssembleLoop_ok_iff listed pod [] 0
    rw [hal] at hiff
    dsimp only
    constructor
    · intro hfalse
      exact absurd hfalse (by simp [Except.isOk, Except.toBool])
    · intro hr
      have hex : ∃ r, (Except.error e : Except Err (DockerPod × Nat)) = .ok r :=
        hiff.mpr ⟨fun i _ hmem => absurd hmem (List.not_mem_nil i), hr.2⟩
      obtain ⟨r, hr2⟩ := hex
      exact absurd hr2 (by simp)
  | ok r =>
    obtain ⟨pod1, cnt⟩ := r
    have hcnt := newPodAssembleLoop_count listed pod [] 0 (pod1, cnt) hal
    have hiff := newPodAssembleLoop_ok_iff listed pod [] 0
    rw [hal] at hiff
    have hnd : (parsedIndices listed).Nodup :=
      (hiff.mp ⟨(pod1, cnt), rfl⟩).2
    dsimp only
    dsimp only at hcnt
    by_cases hc : cnt = listed.length
    · rw [if_neg (show ¬cnt ≠ listed.length from fun hx => hx hc)]
      simp only [Except.isOk, Except.toBool, true_iff]
      refine ⟨?_, hnd⟩
      exact List.countP_eq_length.mp (by omega)
    · rw [if_pos hc]
      constructor
      · intro hfalse
        exact absurd hfalse (by simp [Except.isOk, Except.toBool])
      · intro hr
        have hcp := List.countP_eq_length.mpr hr.1
        exact absurd (by omega) hc

/-! ## Association-list membership lemmas -/

theorem findAssoc_mem {α : Type} {m : List (String × α)} {k : String} {v : α}
    (h : findAssoc m k = some v) : (k, v) ∈ m := by
  unfold findAssoc at h
  cases hf : m.find? (fun p => p.1 == k) with
  | none => rw [hf] at h; cases h
  | some q =>
    rw [hf] at h
    simp only [Option.map_some', Option.some.injEq] at h
    have hq := List.mem_of_find?_eq_some hf
    have hk : q.1 = k := by
      have hks := List.find?_some hf
      simpa using hks
    have hqe : q = (k, v) := by
      cases q
      simp_all
    rwa [hqe] at hq

theorem mem_setAssoc {α : Type} {m : List (String × α)} {k : String} {v : α} {p : String × α}
    (h : p ∈ setAssoc m k v) : p = (k, v) ∨ p ∈ m := by
  induction m with
  | nil =>
    simp only [setAssoc] at h
    exact Or.inl (List.mem_singleton.mp h)
  | cons q rest ih =>
    obtain ⟨k2, v2⟩ := q
    by_cases hk : k2 == k
    · simp only [setAssoc, if_pos hk] at h
      rcases List.mem_cons.mp h with rfl | hmem
      · exact Or.inl rfl
      · exact Or.inr (List.mem_cons_of_mem _ hmem)
    · simp only [setAssoc, if_neg hk] at h
      rcases List.mem_cons.mp h with rfl | hmem
      · exact Or.inr (List.mem_cons_self _ _)
      · rcases ih hmem with hp | hp
        · exact Or.inl hp
        · exact Or.inr (List.mem_cons_of_mem _ hp)

theorem mem_eraseAssoc {α : Type} {m : List (String × α)} {k : String} {p : String × α}
    (h : p ∈ eraseAssoc m k) : p ∈ m :=
  (List.mem_filter.mp h).1

/-! ## Claim C7: the empty-string alias of the main container -/

/-- No pod in the registry map aliases the empty container name. -/
def noEmptyAlias (m : List (String × DockerPod)) : Prop :=
  ∀ q ∈ m, findAssoc q.2.containersMap "" = none

theorem noEmptyAlias_erase {m : List (String × DockerPod)} {k : String}
    (h : noEmptyAlias m) : noEmptyAlias (eraseAssoc m k) :=
  fun q hq => h q (mem_eraseAssoc hq)

theorem noEmptyAlias_iteErase {m : List (String × DockerPod)} {k : String} {P : Prop}
    [Decidable P] (h : noEmptyAlias m) : noEmptyAlias (if P then eraseAssoc m k else m) := by
  split
  · exact noEmptyAlias_erase h
  · exact h

theorem noEmptyAlias_set {m : List (String × DockerPod)} {k : String} {pod : DockerPod}
    (h : noEmptyAlias m) (hp : findAssoc pod.containersMap "" = none) :
    noEmptyAlias (setAssoc m k pod) := by
  intro q hq
  rcases mem_setAssoc hq with rfl | hqm
  · exact hp
  · exact h q hqm

theorem getPodsLoop1_noEmptyAlias (d : DockerDriver) :
    ∀ (cs : List DCont) (m : List (String × DockerPod)),
      noEmptyAlias m → noEmptyAlias (getPodsLoop1 d cs m) := by
  intro cs
  induction cs with
  | nil => intro m hm; exact hm
  | cons c rest ih =>
    intro m hm
    unfold getPodsLoop1
    split
    · exact ih m hm
    · split
      · exact ih m hm
      · split
        · exact ih m hm
        · split
          · exact ih m hm
          · apply ih
            intro q hq
            rcases List.mem_append.mp hq with hqm | hqnew
            · exact hm q hqm
            · rw [List.mem_singleton] at hqnew
              subst hqnew
              rfl

theorem getPodsLoop2_noEmptyAlias (d : DockerDriver) :
    ∀ (cs : List DCont) (m m2 : List (String × DockerPod)),
      getPodsLoop2 d cs m = .ok m2 → noEmptyAlias m → noEmptyAlias m2 := by
  intro cs
  induction cs with
  | nil =>
    intro m m2 h hm
    simp only [getPodsLoop2, Except.ok.injEq] at h
    rwa [← h]
  | cons c rest ih =>
    intro m m2 h hm
    unfold getPodsLoop2 at h
    split at h
    · exact ih _ _ h hm
    · split at h
      · exact ih _ _ h hm
      · split at h
        · exact ih _ _ h hm
        · dsimp only at h
          split at h
          · exact absurd h (by simp)
          · rename_i pod heq
            have hpod : findAssoc pod.containersMap "" = none :=
              (noEmptyAlias_iteErase (noEmptyAlias_iteErase hm)) _ (findAssoc_mem heq)
            refine ih _ _ h (noEmptyAlias_set
              (noEmptyAlias_iteErase (noEmptyAlias_iteErase hm)) ?_)
            split
            · dsimp only
              split
              · split
                · rename_i hne
                  dsimp only
                  rw [findAssoc_setAssoc_ne _ _ _ _ hne]
                  exact hpod
                · exact hpod
              · exact hpod
            · split
              · split
                · rename_i hne
                  dsimp only
                  rw [findAssoc_setAssoc_ne _ _ _ _ hne]
                  exact hpod
                · exact hpod
              · exact hpod

theorem getPodsVolumeLoop_noEmptyAlias (d : DockerDriver) :
    ∀ (vs : List DVol) (m : List (String × DockerPod)),
      noEmptyAlias m → noEmptyAlias (getPodsVolumeLoop d vs m) := by
  intro vs
  induction vs with
  | nil => intro m hm; exact hm
  | cons v rest ih =>
    intro m hm
    unfold getPodsVolumeLoop
    split
    · exact ih m hm
    · split
      · exact ih m hm
      · split
        · exact ih m hm
        · split
          · exact ih m hm
          · rename_i pod heq
            have hpod : findAssoc pod.containersMap "" = none :=
              hm _ (findAssoc_mem heq)
            split
            · split
              · exact ih _ (noEmptyAlias_set hm hpod)
              · split
                · exact ih _ (noEmptyAlias_set hm hpod)
                · exact ih m hm
            · exact ih m hm

/-- The daemon state of the C7 scenario: one well-formed container of pod
`pA` with index 0, as `GetPods` would see after an executor restart. -/
def c7gpState : DState :=
  { containers := [c5goodCont], volumes := [], images := [], nextID := 0,
    fetchLog := [], pulls := [] }

def c7ec : ExecConfig :=
  { container := "", cmd := ["sh"], env := [], workingDir := "", user := "",
    tty := false, attachStdin := false, hasStdout := false, hasStderr := false }

/-- C7 counterexample: a pod rehydrated by `GetPods` (from one well-formed
index-0 container) has NO empty-string entry in its name→container map even
though it does have a main container with index 0; consequently `Exec` with
an empty target container name fails with `NotFound` on such a pod.  This
refutes the claim for pods returned by `GetPods`. -/
theorem c7_counterexample :
    ((getPods c5drv true c7gpState).toOption.getD default).head?.map
      (fun p => (p.containers.map (fun dc => dc.index), findAssoc p.containersMap "")) =
      some ([0], none) ∧
    ((getPods c5drv true c7gpState).toOption.getD default).head?.map
      (fun p => p.exec c7ec) =
      some (.error (.containerNotFound "")) := ⟨rfl, rfl⟩

/-- C7 (amended): for every pod returned by `NewPod`, the empty-string key of
the name→container map aliases the first (lowest-index) container of the
sorted sequence; pods rehydrated by `GetPods` never carry an empty-string
alias, so `Exec` with an empty container name fails on them. -/
theorem c7_empty_alias_newpod_only :
    (∀ (d : DockerDriver) (pc : PodConfig) (st : DState) (r : DState × DockerPod),
      newPod d pc st = .ok r →
      findAssoc r.2.containersMap "" = r.2.containers.head?) ∧
    (∀ (d : DockerDriver) (all : Bool) (st : DState) (pods : List DockerPod),
      getPods d all st = .ok pods → ∀ p ∈ pods, findAssoc p.containersMap "" = none) := by
  constructor
  · intro d pc st r h
    unfold newPod at h
    split at h
    · exact absurd h (by simp)
    · dsimp only at h
      split at h
      · exact absurd h (by simp)
      · split at h
        · exact absurd h (by simp)
        · split at h
          · exact absurd h (by simp)
          · split at h
            · exact absurd h (by simp)
            · rename_i heq
              simp only [Except.ok.injEq] at h
              subst h
              simp [findAssoc_setAssoc_self, heq]
  · intro d all st pods h
    unfold getPods at h
    dsimp only at h
    split at h
    · exact absurd h (by simp)
    · rename_i m2 hl2
      simp only [Except.ok.injEq] at h
      subst h
      intro p hp
      obtain ⟨q, hq, hpq⟩ := List.mem_map.mp hp
      have hm3 : noEmptyAlias (getPodsVolumeLoop d st.volumes m2) :=
        getPodsVolumeLoop_noEmptyAlias d _ _
          (getPodsLoop2_noEmptyAlias d _ _ _ hl2
            (getPodsLoop1_noEmptyAlias d _ [] (fun q2 hq2 => absurd hq2 (List.not_mem_nil q2))))
      have hqprop := hm3 q hq
      rw [← hpq]
      exact hqprop

def c7pc : PodConfig :=
  { id := "p7", taskID := "t7", initVolumeDir := "/mnt/agola", containers := [c1cfg] }

theorem c7_empty_alias_newpod_only_witness :
    findAssoc ((newPod c1drv c7pc c1st).toOption.getD default).2.containersMap "" =
      ((newPod c1drv c7pc c1st).toOption.getD default).2.containers.head? ∧
    findAssoc (((getPods c5drv true c7gpState).toOption.getD
        default).headD default).containersMap "" = none := by
  constructor
  · exact c7_empty_alias_newpod_only.1 c1drv c7pc c1st _ (by rfl)
  · refine c7_empty_alias_newpod_only.2 c5drv true c7gpState _ (by rfl) _ ?_
    exact List.mem_of_mem_head? (by rfl)

/-! ## Characterisation of the containers NewPod creates (for C6 and C8)

`builtCont d pc m tv pv i cid run` is the daemon container `createContainer`
registers for declaration index `i` when the main container's ID is `m` and
the toolbox/project volume names are `tv`/`pv`. -/

/-- The tmpfs mounts of a config whose volumes are all tmpfs. -/
def tmpfsMountList (vols : List ContainerVolume) : List Mount :=
  vols.filterMap (fun v => v.tmpFS.map (fun t =>
    { type := .tmpfs, source := "", target := v.path, readOnly := false,
      tmpfsSize := t.size }))

theorem tmpfsMounts_eq_ok {vols : List ContainerVolume}
    (hv : ∀ v ∈ vols, v.tmpFS ≠ none) :
    tmpfsMounts vols = .ok (tmpfsMountList vols) := by
  induction vols with
  | nil => rfl
  | cons v rest ih =>
    cases hvt : v.tmpFS with
    | none => exact absurd hvt (hv v (List.mem_cons_self v rest))
    | some t =>
      have hrest := ih (fun w hw => hv w (List.mem_cons_of_mem v hw))
      simp [tmpfsMounts, tmpfsMountList, hvt, hrest]

/-- The container `createContainer` builds for index `i` (`run` is the
running flag; the loop starts each container right after creating it). -/
def builtCont (d : DockerDriver) (pc : PodConfig) (m tv pv : String) (i : Nat)
    (cid : String) (run : Bool) : DCont :=
  let cfg := (pc.containers[i]?).getD default
  let name := resolveName cfg i
  { id := cid, labels := mkContainerLabels d pc i name, entrypoint := cfg.cmd,
    env := makeEnvSlice cfg.env, workingDir := cfg.workingDir, image := cfg.image,
    privileged := cfg.privileged,
    networkMode := if i ≠ 0 then "container:" ++ m else "",
    mounts := (if name ≠ "" then
        [{ type := .volume, source := tv, target := pc.initVolumeDir, readOnly := true,
           tmpfsSize := 0 },
         { type := .volume, source := pv, target := defaultProjectDir, readOnly := false,
           tmpfsSize := 0 }]
      else []) ++ tmpfsMountList cfg.volumes,
    running := run }

theorem builtCont_zero_m_irrel (d : DockerDriver) (pc : PodConfig) (m m2 tv pv : String)
    (cid : String) (run : Bool) :
    builtCont d pc m tv pv 0 cid run = builtCont d pc m2 tv pv 0 cid run := by
  simp [builtCont]

/-- The containers built for the index list `idxs`, with daemon IDs starting
at counter `b`. -/
def builtList (d : DockerDriver) (pc : PodConfig) (m tv pv : String) :
    List Nat → Nat → List DCont
  | [], _ => []
  | i :: rest, b =>
    builtCont d pc m tv pv i ("c" ++ toString b) true :: builtList d pc m tv pv rest (b + 1)

theorem createContainer_shape (d : DockerDriver) (pc : PodConfig) (i : Nat)
    (m tv pv : String) (st : DState) {cfg : ContainerConfig}
    (hcfg : pc.containers[i]? = some cfg) (hv : ∀ v ∈ cfg.volumes, v.tmpFS ≠ none) :
    ∃ stf, createContainer d i pc m tv pv st = .ok (stf, "c" ++ toString st.nextID) ∧
      stf.containers = st.containers ++
        [builtCont d pc m tv pv i ("c" ++ toString st.nextID) false] ∧
      stf.nextID = st.nextID + 1 := by
  unfold createContainer
  rw [hcfg]
  dsimp only
  rw [tmpfsMounts_eq_ok hv]
  refine ⟨_, rfl, ?_, ?_⟩
  · simp [containerCreate, freshContainerID, fetchImage_fst_containers,
      fetchImage_fst_nextID, builtCont, hcfg]
  · simp [containerCreate, fetchImage_fst_nextID]

theorem matchesLabels_mkContainerLabels (d : DockerDriver) (pc : PodConfig) (i : Nat)
    (name : String) :
    matchesLabels (newPodSearchLabels d pc) (mkContainerLabels d pc i name) = true := by
  simp [matchesLabels, newPodSearchLabels, mkContainerLabels, lookupLabel, List.find?,
    agolaLabelKey, executorIDKey, podIDKey, taskIDKey, labelPfx]

/-- Setting the running flag on an already-running container is a no-op. -/
theorem DCont_set_running_of_running {c : DCont} (h : c.running = true) :
    { c with running := true } = c := by
  cases c
  simp_all

/-- Marking container `cid` as started neither changes which containers pass
a `running && labels` filter nor their filtered values, provided every
matching container is already running. -/
theorem filter_crit_map_start (S : List (String × String)) (cid : String)
    (l : List DCont) (h : ∀ c ∈ l, matchesLabels S c.labels = true → c.running = true) :
    (l.map (fun c => if c.id == cid then { c with running := true } else c)).filter
        (fun c => c.running && matchesLabels S c.labels) =
      l.filter (fun c => c.running && matchesLabels S c.labels) ∧
    (∀ c ∈ l.map (fun c => if c.id == cid then { c with running := true } else c),
      matchesLabels S c.labels = true → c.running = true) := by
  induction l with
  | nil => exact ⟨rfl, by simp⟩
  | cons c rest ih =>
    obtain ⟨ihf, ihp⟩ := ih (fun x hx => h x (List.mem_cons_of_mem c hx))
    have hc := h c (List.mem_cons_self c rest)
    constructor
    · simp only [List.map_cons, List.filter_cons]
      by_cases hid : (c.id == cid) = true
      · rw [if_pos hid]
        by_cases hmt : matchesLabels S c.labels = true
        · rw [DCont_set_running_of_running (hc hmt)]
          simp only [ihf]
        · have hml : matchesLabels S c.labels = false := by
            simpa using hmt
          have e1 : (({ c with running := true } : DCont).running &&
              matchesLabels S ({ c with running := true } : DCont).labels) = false := by
            simp [hml]
          have e2 : (c.running && matchesLabels S c.labels) = false := by
            simp [hml]
          rw [e1, e2]
          simp only [Bool.false_eq_true, if_false]
          exact ihf
      · rw [if_neg hid]
        simp only [ihf]
    · intro x hx hmx
      simp only [List.map_cons, List.mem_cons] at hx
      rcases hx with rfl | hx2
      · by_cases hid : (c.id == cid) = true
        · rw [if_pos hid] at hmx ⊢
        · rw [if_neg hid] at hmx ⊢
          exact hc hmx
      · exact ihp x hx2 hmx

/-- Invariant carried through the create/start loop: the running containers
matching the pod's search labels are exactly the ones built so far, and every
matching container is running. -/
def CreateInv (S : List (String × String)) (st : DState) (built : List DCont) : Prop :=
  st.containers.filter (fun c => c.running && matchesLabels S c.labels) = built ∧
  ∀ c ∈ st.containers, matchesLabels S c.labels = true → c.running = true

theorem containerList_eq_filter (S : List (String × String)) (st : DState) :
    containerList S false st =
      st.containers.filter (fun c => c.running && matchesLabels S c.labels) := by
  unfold containerList
  rw [if_neg (by simp)]
  rw [List.filter_filter]
  apply List.filter_congr
  intro c _
  exact Bool.and_comm _ _

theorem createLoop_invariant (d : DockerDriver) (pc : PodConfig) (tv pv : String) :
    ∀ (idxs : List Nat) (m : String) (st : DState) (built : List DCont),
      (∀ i ∈ idxs, i ≠ 0) →
      (∀ i ∈ idxs, ∃ cfg, pc.containers[i]? = some cfg ∧ ∀ v ∈ cfg.volumes, v.tmpFS ≠ none) →
      CreateInv (newPodSearchLabels d pc) st built →
      ∃ st2, newPodCreateLoop d pc tv pv idxs m st = .ok (st2, m) ∧
        CreateInv (newPodSearchLabels d pc) st2
          (built ++ builtList d pc m tv pv idxs st.nextID) ∧
        st2.nextID = st.nextID + idxs.length := by
  intro idxs
  induction idxs with
  | nil =>
    intro m st built _ _ hinv
    exact ⟨st, rfl, by simpa [builtList] using hinv, by simp⟩
  | cons i rest ih =>
    intro m st built hnz hcfgs hinv
    obtain ⟨cfg, hcfg, hv⟩ := hcfgs i (List.mem_cons_self i rest)
    obtain ⟨stf, hcc, hconts, hnid⟩ := createContainer_shape d pc i m tv pv st hcfg hv
    simp only [newPodCreateLoop, hcc]
    have hieq : (i == 0) = false := by
      simpa using hnz i (List.mem_cons_self i rest)
    have hm1 : (if (i == 0) = true then "c" ++ toString st.nextID else m) = m := by
      rw [hieq]
      rfl
    rw [hm1]
    set cid := "c" ++ toString st.nextID with hcid
    set pre := builtCont d pc m tv pv i cid false with hpre
    have hstart : (containerStart cid stf).containers =
        (st.containers.map (fun c => if c.id == cid then { c with running := true } else c))
          ++ [builtCont d pc m tv pv i cid true] := by
      simp only [containerStart, hconts, List.map_append, List.map_cons, List.map_nil]
      have hpid : (pre.id == cid) = true := by
        simp [hpre, builtCont]
      rw [hpid]
      simp only [if_true]
      have : ({ pre with running := true } : DCont) = builtCont d pc m tv pv i cid true := by
        simp [hpre, builtCont]
      rw [this]
    obtain ⟨hf, hp⟩ := filter_crit_map_start (newPodSearchLabels d pc) cid
      st.containers hinv.2
    have hbuiltRun : (builtCont d pc m tv pv i cid true).running = true := rfl
    have hbuiltMatch :
        matchesLabels (newPodSearchLabels d pc) (builtCont d pc m tv pv i cid true).labels
          = true := by
      simp only [builtCont]
      exact matchesLabels_mkContainerLabels d pc i _
    have hinv2 : CreateInv (newPodSearchLabels d pc) (containerStart cid stf)
        (built ++ [builtCont d pc m tv pv i cid true]) := by
      constructor
      · rw [hstart, List.filter_append, hf, hinv.1]
        simp [hbuiltRun, hbuiltMatch]
      · intro c hcx hmx
        rw [hstart] at hcx
        rcases List.mem_append.mp hcx with hcm | hcone
        · exact hp c hcm hmx
        · rw [List.mem_singleton] at hcone
          subst hcone
          rfl
    have hnid2 : (containerStart cid stf).nextID = st.nextID + 1 := by
      simp [containerStart, hnid]
    obtain ⟨st2, hloop, hinv3, hnid3⟩ := ih m (containerStart cid stf)
      (built ++ [builtCont d pc m tv pv i cid true])
      (fun j hj => hnz j (List.mem_cons_of_mem i hj))
      (fun j hj => hcfgs j (List.mem_cons_of_mem i hj)) hinv2
    refine ⟨st2, hloop, ?_, by simp [hnid3, hnid2]; omega⟩
    rw [hnid2] at hinv3
    simpa [builtList, List.append_assoc] using hinv3

theorem createLoop_range (d : DockerDriver) (pc : PodConfig) (tv pv : String)
    (N : Nat) (hN : 0 < N)
    (hcfgs : ∀ i, i < N →
      ∃ cfg, pc.containers[i]? = some cfg ∧ ∀ v ∈ cfg.volumes, v.tmpFS ≠ none)
    (st : DState) (built : List DCont)
    (hinv : CreateInv (newPodSearchLabels d pc) st built) :
    ∃ st2, newPodCreateLoop d pc tv pv (List.range N) "" st
        = .ok (st2, "c" ++ toString st.nextID) ∧
      CreateInv (newPodSearchLabels d pc) st2
        (built ++ builtList d pc ("c" ++ toString st.nextID) tv pv (List.range N) st.nextID) ∧
      st2.nextID = st.nextID + N := by
  obtain ⟨k, rfl⟩ : ∃ k, N = k + 1 := ⟨N - 1, by omega⟩
  rw [List.range_succ_eq_map]
  obtain ⟨cfg0, hcfg0, hv0⟩ := hcfgs 0 (by omega)
  obtain ⟨stf, hcc, hconts, hnid⟩ := createContainer_shape d pc 0 "" tv pv st hcfg0 hv0
  simp only [newPodCreateLoop, hcc]
  have hm1 : (if (0 == 0) = true then "c" ++ toString st.nextID else "")
      = "c" ++ toString st.nextID := rfl
  rw [hm1]
  set cid := "c" ++ toString st.nextID with hcid
  set pre := builtCont d pc "" tv pv 0 cid false with hpre
  have hstart : (containerStart cid stf).containers =
      (st.containers.map (fun c => if c.id == cid then { c with running := true } else c))
        ++ [builtCont d pc cid tv pv 0 cid true] := by
    simp only [containerStart, hconts, List.map_append, List.map_cons, List.map_nil]
    have hpid : (pre.id == cid) = true := by
      simp [hpre, builtCont]
    rw [hpid]
    simp only [if_true]
    have hupd : ({ pre with running := true } : DCont)
        = builtCont d pc cid tv pv 0 cid true := by
      rw [hpre, builtCont_zero_m_irrel d pc "" cid tv pv cid false]
      simp [builtCont]
    rw [hupd]
  obtain ⟨hf, hp⟩ := filter_crit_map_start (newPodSearchLabels d pc) cid
    st.containers hinv.2
  have hbuiltMatch :
      matchesLabels (newPodSearchLabels d pc) (builtCont d pc cid tv pv 0 cid true).labels
        = true := by
    simp only [builtCont]
    exact matchesLabels_mkContainerLabels d pc 0 _
  have hbuiltRun : (builtCont d pc cid tv pv 0 cid true).running = true := rfl
  have hinv2 : CreateInv (newPodSearchLabels d pc) (containerStart cid stf)
      (built ++ [builtCont d pc cid tv pv 0 cid true]) := by
    constructor
    · rw [hstart, List.filter_append, hf, hinv.1]
      simp [hbuiltMatch, hbuiltRun]
    · intro c hcx hmx
      rw [hstart] at hcx
      rcases List.mem_append.mp hcx with hcm | hcone
      · exact hp c hcm hmx
      · rw [List.mem_singleton] at hcone
        subst hcone
        rfl
  have hnid2 : (containerStart cid stf).nextID = st.nextID + 1 := by
    simp [containerStart, hnid]
  have hnz : ∀ i ∈ (List.range k).map Nat.succ, i ≠ 0 := by
    intro i hi
    obtain ⟨j, _, rfl⟩ := List.mem_map.mp hi
    exact Nat.succ_ne_zero j
  have hcfgs2 : ∀ i ∈ (List.range k).map Nat.succ,
      ∃ cfg, pc.containers[i]? = some cfg ∧ ∀ v ∈ cfg.volumes, v.tmpFS ≠ none := by
    intro i hi
    obtain ⟨j, hj, rfl⟩ := List.mem_map.mp hi
    exact hcfgs (j + 1) (by have := List.mem_range.mp hj; omega)
  obtain ⟨st2, hloop, hinv3, hnid3⟩ := createLoop_invariant d pc tv pv
    ((List.range k).map Nat.succ) cid (containerStart cid stf)
    (built ++ [builtCont d pc cid tv pv 0 cid true]) hnz hcfgs2 hinv2
  refine ⟨st2, hloop, ?_, by simp at hnid3 ⊢; omega⟩
  rw [hnid2] at hinv3
  have hblc : builtList d pc cid tv pv (0 :: (List.range k).map Nat.succ) st.nextID
      = builtCont d pc cid tv pv 0 cid true ::
        builtList d pc cid tv pv ((List.range k).map Nat.succ) (st.nextID + 1) := rfl
  rw [hblc]
  simpa [List.append_assoc] using hinv3

theorem createProjectVolume_containers (d : DockerDriver) (pid : String) (st : DState) :
    (createProjectVolume d pid st).1.containers = st.containers := rfl

theorem createProjectVolume_nextID (d : DockerDriver) (pid : String) (st : DState) :
    (createProjectVolume d pid st).1.nextID = st.nextID + 1 := rfl

theorem createToolboxVolume_nextID (d : DockerDriver) (pid : String) (st : DState) :
    (createToolboxVolume d pid st).1.nextID = st.nextID + 2 := by
  simp [createToolboxVolume, containerRemove, containerStart, containerCreate,
    volumeCreate, fetchImage_fst_nextID]

theorem matchesLabels_nil_labels (d : DockerDriver) (pc : PodConfig) :
    matchesLabels (newPodSearchLabels d pc) [] = false := by
  simp [matchesLabels, newPodSearchLabels, lookupLabel, List.find?]

/-- Freshness survives toolbox/project volume creation: the helper container
carries no labels and is removed again; no other container's labels change. -/
theorem volumes_preserve_freshness (d : DockerDriver) (pc : PodConfig) (pid : String)
    (st : DState)
    (hfresh : ∀ c ∈ st.containers, matchesLabels (newPodSearchLabels d pc) c.labels = false) :
    ∀ c ∈ (createProjectVolume d pid (createToolboxVolume d pid st).1).1.containers,
      matchesLabels (newPodSearchLabels d pc) c.labels = false := by
  intro c hc
  rw [createProjectVolume_containers] at hc
  simp only [createToolboxVolume, containerRemove, containerStart, containerCreate,
    volumeCreate] at hc
  rw [List.mem_filter] at hc
  obtain ⟨hcm, _⟩ := hc
  rw [List.mem_map] at hcm
  obtain ⟨orig, hom, rfl⟩ := hcm
  have hlabels : ∀ (x : DCont) (s : String),
      ((if (x.id == s) = true then { x with running := true } else x) : DCont).labels
        = x.labels := by
    intro x s
    split <;> rfl
  rw [hlabels]
  rcases List.mem_append.mp hom with horig | hhelper
  · rw [fetchImage_fst_containers] at horig
    exact hfresh orig horig
  · rw [List.mem_singleton] at hhelper
    subst hhelper
    exact matchesLabels_nil_labels d pc

theorem tmpfsMounts_ok_inv {vols : List ContainerVolume} {ms : List Mount}
    (h : tmpfsMounts vols = .ok ms) : ∀ v ∈ vols, v.tmpFS ≠ none := by
  induction vols generalizing ms with
  | nil => intro v hv; cases hv
  | cons v rest ih =>
    intro w hw
    cases hvt : v.tmpFS with
    | none => rw [tmpfsMounts, hvt] at h; exact absurd h (by simp)
    | some t =>
      rw [tmpfsMounts, hvt] at h
      cases hrest : tmpfsMounts rest with
      | error e => rw [hrest] at h; exact absurd h (by simp)
      | ok ms2 =>
        rcases List.mem_cons.mp hw with rfl | hw2
        · simp [hvt]
        · exact ih hrest w hw2

theorem createContainer_ok_inv {d : DockerDriver} {i : Nat} {pc : PodConfig}
    {m tv pv : String} {st : DState} {p : DState × String}
    (h : createContainer d i pc m tv pv st = .ok p) :
    ∃ cfg, pc.containers[i]? = some cfg ∧ ∀ v ∈ cfg.volumes, v.tmpFS ≠ none := by
  unfold createContainer at h
  cases hcfg : pc.containers[i]? with
  | none => rw [hcfg] at h; exact absurd h (by simp)
  | some cfg =>
    rw [hcfg] at h
    dsimp only at h
    cases htm : tmpfsMounts cfg.volumes with
    | error e => rw [htm] at h; exact absurd h (by simp)
    | ok tms => exact ⟨cfg, rfl, tmpfsMounts_ok_inv htm⟩

theorem newPodCreateLoop_ok_good {d : DockerDriver} {pc : PodConfig} {tv pv : String} :
    ∀ {idxs : List Nat} {m : String} {st : DState} {p : DState × String},
      newPodCreateLoop d pc tv pv idxs m st = .ok p →
      ∀ i ∈ idxs, ∃ cfg, pc.containers[i]? = some cfg ∧
        ∀ v ∈ cfg.volumes, v.tmpFS ≠ none := by
  intro idxs
  induction idxs with
  | nil => intro m st p _ i hi; cases hi
  | cons j rest ih =>
    intro m st p h i hi
    simp only [newPodCreateLoop] at h
    cases hc : createContainer d j pc m tv pv st with
    | error e => rw [hc] at h; exact absurd h (by simp)
    | ok q =>
      rw [hc] at h
      obtain ⟨st1, cid⟩ := q
      dsimp only at h
      rcases List.mem_cons.mp hi with rfl | hi2
      · exact createContainer_ok_inv hc
      · exact ih h i hi2

/-- The `DockerContainer` the discovery loop wraps a listed container in. -/
def dcOf (c : DCont) (i : Int) : DockerContainer :=
  ⟨i, { c with mounts := sortMounts c.mounts }⟩

/-- The discovery result for the built containers: one wrapper per built
container, indices parsed back from the labels. -/
def builtDCList (d : DockerDriver) (pc : PodConfig) (m tv pv : String) :
    List Nat → Nat → List DockerContainer
  | [], _ => []
  | i :: rest, b =>
    dcOf (builtCont d pc m tv pv i ("c" ++ toString b) true) (i : Int) ::
      builtDCList d pc m tv pv rest (b + 1)

theorem lookupLabel_mkContainerLabels_index (d : DockerDriver) (pc : PodConfig)
    (i : Nat) (name : String) :
    lookupLabel (mkContainerLabels d pc i name) containerIndexKey = some (itoa i) := by
  simp [lookupLabel, mkContainerLabels, List.find?, containerIndexKey, agolaLabelKey,
    executorIDKey, podIDKey, taskIDKey, labelPfx]

theorem assembleLoop_builtDCList (d : DockerDriver) (pc : PodConfig) (m tv pv : String) :
    ∀ (idxs : List Nat) (b : Nat) (pod : DockerPod) (seen : List Int) (count : Nat),
      (∀ i ∈ idxs, ((i : Int)) ∉ seen) → idxs.Nodup →
      ∃ cm2, newPodAssembleLoop (builtList d pc m tv pv idxs b) pod seen count =
        .ok ({ pod with
                 containers := pod.containers ++ builtDCList d pc m tv pv idxs b,
                 containersMap := cm2 }, count + idxs.length) := by
  intro idxs
  induction idxs with
  | nil =>
    intro b pod seen count _ _
    refine ⟨pod.containersMap, ?_⟩
    simp [newPodAssembleLoop, builtList, builtDCList]
  | cons i rest ih =>
    intro b pod seen count hseen hnd
    have hlk : lookupLabel (builtCont d pc m tv pv i ("c" ++ toString b) true).labels
        containerIndexKey = some (itoa i) := by
      simp only [builtCont]
      exact lookupLabel_mkContainerLabels_index d pc i _
    have hcont : (seen.contains ((i : Int))) = false := by
      simpa using hseen i (List.mem_cons_self i rest)
    have hseen2 : ∀ j ∈ rest, ((j : Int)) ∉ seen ++ [((i : Int))] := by
      intro j hj hmem
      rcases List.mem_append.mp hmem with hs | hsing
      · exact hseen j (List.mem_cons_of_mem i hj) hs
      · rw [List.mem_singleton] at hsing
        have hji : j = i := by exact_mod_cast hsing
        subst hji
        exact (List.nodup_cons.mp hnd).1 hj
    have hnd2 := (List.nodup_cons.mp hnd).2
    have hlen : count + (i :: rest).length = (count + 1) + rest.length := by
      simp [List.length_cons]
      omega
    simp only [builtList, newPodAssembleLoop, hlk, atoi_itoa]
    rw [if_neg (by simpa using hseen i (List.mem_cons_self i rest))]
    have hlist : pod.containers ++ builtDCList d pc m tv pv (i :: rest) b =
        (pod.containers ++
          [dcOf (builtCont d pc m tv pv i ("c" ++ toString b) true) ((i : Int))]) ++
          builtDCList d pc m tv pv rest (b + 1) := by
      simp [builtDCList, List.append_assoc]
    set dcx : DockerContainer :=
      dcOf (builtCont d pc m tv pv i ("c" ++ toString b) true) ((i : Int)) with hdcx
    cases hnm : lookupLabel (builtCont d pc m tv pv i ("c" ++ toString b) true).labels
        containerNameKey with
    | none =>
      simp only [hnm]
      obtain ⟨cm2, hrec⟩ := ih (b + 1)
        { pod with containers := pod.containers ++ [dcx] }
        (seen ++ [((i : Int))]) (count + 1) hseen2 hnd2
      refine ⟨cm2, ?_⟩
      rw [hlen, hlist]
      exact hrec
    | some name =>
      simp only [hnm]
      by_cases hne : name ≠ ""
      · rw [if_pos hne]
        obtain ⟨cm2, hrec⟩ := ih (b + 1)
          { pod with
              containers := pod.containers ++ [dcx],
              containersMap := setAssoc pod.containersMap name dcx }
          (seen ++ [((i : Int))]) (count + 1) hseen2 hnd2
        refine ⟨cm2, ?_⟩
        rw [hlen, hlist]
        exact hrec
      · rw [if_neg hne]
        obtain ⟨cm2, hrec⟩ := ih (b + 1)
          { pod with containers := pod.containers ++ [dcx] }
          (seen ++ [((i : Int))]) (count + 1) hseen2 hnd2
        refine ⟨cm2, ?_⟩
        rw [hlen, hlist]
        exact hrec

theorem builtList_length (d : DockerDriver) (pc : PodConfig) (m tv pv : String) :
    ∀ (idxs : List Nat) (b : Nat), (builtList d pc m tv pv idxs b).length = idxs.length := by
  intro idxs
  induction idxs with
  | nil => intro b; rfl
  | cons i rest ih =>
    intro b
    simp [builtList, ih]

theorem builtDCList_map_index (d : DockerDriver) (pc : PodConfig) (m tv pv : String) :
    ∀ (idxs : List Nat) (b : Nat),
      (builtDCList d pc m tv pv idxs b).map (fun dc => dc.index)
        = idxs.map (fun j => (j : Int)) := by
  intro idxs
  induction idxs with
  | nil => intro b; rfl
  | cons i rest ih =>
    intro b
    simp [builtDCList, dcOf, ih]

theorem builtDCList_length (d : DockerDriver) (pc : PodConfig) (m tv pv : String) :
    ∀ (idxs : List Nat) (b : Nat),
      (builtDCList d pc m tv pv idxs b).length = idxs.length := by
  intro idxs
  induction idxs with
  | nil => intro b; rfl
  | cons i rest ih =>
    intro b
    simp [builtDCList, ih]

theorem builtDCList_network (d : DockerDriver) (pc : PodConfig) (m tv pv : String) :
    ∀ (idxs : List Nat) (b : Nat), ∀ dc ∈ builtDCList d pc m tv pv idxs b,
      (dc.index = 0 → dc.container.networkMode = "") ∧
      (dc.index ≠ 0 → dc.container.networkMode = "container:" ++ m) := by
  intro idxs
  induction idxs with
  | nil => intro b dc hdc; cases hdc
  | cons i rest ih =>
    intro b dc hdc
    rcases List.mem_cons.mp hdc with rfl | hdc2
    · constructor
      · intro hz
        have hiz : i = 0 := by
          simpa [dcOf] using hz
        simp [dcOf, builtCont, hiz]
      · intro hnz
        have hinz : i ≠ 0 := fun hiz => hnz (by simp [dcOf, hiz])
        simp [dcOf, builtCont, hinz]
    · exact ih (b + 1) dc hdc2

theorem builtDCList_mem_index (d : DockerDriver) (pc : PodConfig) (m tv pv : String) :
    ∀ (idxs : List Nat) (b : Nat), ∀ dc ∈ builtDCList d pc m tv pv idxs b,
      ∃ j ∈ idxs, dc.index = (j : Int) := by
  intro idxs
  induction idxs with
  | nil => intro b dc hdc; cases hdc
  | cons i rest ih =>
    intro b dc hdc
    rcases List.mem_cons.mp hdc with rfl | hdc2
    · exact ⟨i, List.mem_cons_self i rest, rfl⟩
    · obtain ⟨j, hj, hje⟩ := ih (b + 1) dc hdc2
      exact ⟨j, List.mem_cons_of_mem i hj, hje⟩

theorem builtDCList_sorted_of (d : DockerDriver) (pc : PodConfig) (m tv pv : String) :
    ∀ (idxs : List Nat) (b : Nat), List.Pairwise (fun a b2 => a < b2) idxs →
      List.Sorted containersByIndexLe (builtDCList d pc m tv pv idxs b) := by
  intro idxs
  induction idxs with
  | nil => intro b _; exact List.Pairwise.nil
  | cons i rest ih =>
    intro b hp
    rw [List.pairwise_cons] at hp
    refine List.Pairwise.cons ?_ (ih (b + 1) hp.2)
    intro dc hdc
    obtain ⟨j, hj, hje⟩ := builtDCList_mem_index d pc m tv pv rest (b + 1) dc hdc
    show ((i : Int)) ≤ dc.index
    rw [hje]
    exact_mod_cast Nat.le_of_lt (hp.1 j hj)

theorem builtDCList_sorted (d : DockerDriver) (pc : PodConfig) (m tv pv : String)
    (N b : Nat) :
    List.Sorted containersByIndexLe (builtDCList d pc m tv pv (List.range N) b) :=
  builtDCList_sorted_of d pc m tv pv (List.range N) b (List.pairwise_lt_range N)

/-- Master characterisation: a `newPod` run from a daemon state holding no
container that matches the pod's search labels returns exactly the wrapped
built containers for indices `0..N-1`, in order, with daemon IDs starting at
some counter `b` and the main container's ID (`"c" ++ toString b`) wired as
the network peer of the others. -/
theorem newPod_fresh_shape {d : DockerDriver} {pc : PodConfig} {st : DState}
    {r : DState × DockerPod}
    (hfresh : ∀ c ∈ st.containers, matchesLabels (newPodSearchLabels d pc) c.labels = false)
    (h : newPod d pc st = .ok r) :
    ∃ b tv pv, r.2.containers =
      builtDCList d pc ("c" ++ toString b) tv pv (List.range pc.containers.length) b := by
  unfold newPod at h
  split at h
  · exact absurd h (by simp)
  · rename_i hN0
    dsimp only at h
    have hN : 0 < pc.containers.length := by
      rcases Nat.eq_zero_or_pos pc.containers.length with hz | hp
      · exact absurd (by simp [hz]) hN0
      · exact hp
    set tv := (createToolboxVolume d pc.id st).2 with htv
    set pv := (createProjectVolume d pc.id (createToolboxVolume d pc.id st).1).2 with hpv
    set stv := (createProjectVolume d pc.id (createToolboxVolume d pc.id st).1).1 with hstv
    cases hl : newPodCreateLoop d pc tv pv (List.range pc.containers.length) "" stv with
    | error e => rw [hl] at h; exact absurd h (by simp)
    | ok p =>
      rw [hl] at h
      dsimp only at h
      obtain ⟨st3, m3⟩ := p
      have hgood : ∀ i, i < pc.containers.length →
          ∃ cfg, pc.containers[i]? = some cfg ∧ ∀ v ∈ cfg.volumes, v.tmpFS ≠ none :=
        fun i hi => newPodCreateLoop_ok_good hl i (List.mem_range.mpr hi)
      have hfresh2 : ∀ c ∈ stv.containers,
          matchesLabels (newPodSearchLabels d pc) c.labels = false :=
        volumes_preserve_freshness d pc pc.id st hfresh
      have hinv : CreateInv (newPodSearchLabels d pc) stv [] := by
        constructor
        · rw [List.filter_eq_nil]
          intro c hc
          simp [hfresh2 c hc]
        · intro c hc hm
          exact absurd hm (by simp [hfresh2 c hc])
      obtain ⟨st2, hl2, hinv2, hnid2⟩ := createLoop_range d pc tv pv
        pc.containers.length hN hgood stv [] hinv
      rw [hl] at hl2
      have hst3 : st3 = st2 ∧ m3 = "c" ++ toString stv.nextID := by
        have hinj := hl2
        simp only [Except.ok.injEq, Prod.mk.injEq] at hinj
        exact ⟨hinj.1, hinj.2⟩
      obtain ⟨rfl, rfl⟩ := hst3
      have hlisted : containerList (newPodSearchLabels d pc) false st3 =
          builtList d pc ("c" ++ toString stv.nextID) tv pv
            (List.range pc.containers.length) stv.nextID := by
        rw [containerList_eq_filter]
        have hi1 := hinv2.1
        simpa using hi1
      rw [hlisted] at h
      have hlen0 : ((builtList d pc ("c" ++ toString stv.nextID) tv pv
          (List.range pc.containers.length) stv.nextID).length == 0) = false := by
        rw [builtList_length]
        simp only [List.length_range]
        simp [Nat.pos_iff_ne_zero.mp hN]
      rw [hlen0] at h
      simp only [Bool.false_eq_true, if_false] at h
      obtain ⟨cm2, hasm⟩ := assembleLoop_builtDCList d pc ("c" ++ toString stv.nextID)
        tv pv (List.range pc.containers.length) stv.nextID
        { id := pc.id, executorID := d.executorID, labels := [], containers := [],
          containersMap := [], toolboxVolumeName := tv, projectVolumeName := pv,
          initVolumeDir := pc.initVolumeDir }
        [] 0 (fun i _ hmem => absurd hmem (List.not_mem_nil _))
        (List.nodup_range pc.containers.length)
      unfold newPodDiscover at h
      rw [hasm] at h
      dsimp only at h
      rw [if_neg (by simp [builtList_length])] at h
      dsimp only at h
      have hsort : sortContainersByIndex
          (builtDCList d pc ("c" ++ toString stv.nextID) tv pv
            (List.range pc.containers.length) stv.nextID) =
          builtDCList d pc ("c" ++ toString stv.nextID) tv pv
            (List.range pc.containers.length) stv.nextID :=
        List.Sorted.insertionSort_eq
          (builtDCList_sorted d pc ("c" ++ toString stv.nextID) tv pv _ _)
      rw [show ([] : List DockerContainer) ++ builtDCList d pc
          ("c" ++ toString stv.nextID) tv pv (List.range pc.containers.length) stv.nextID
          = builtDCList d pc ("c" ++ toString stv.nextID) tv pv
            (List.range pc.containers.length) stv.nextID from rfl] at h
      rw [hsort] at h
      split at h
      · exact absurd h (by simp)
      · simp only [Except.ok.injEq] at h
        refine ⟨stv.nextID, tv, pv, ?_⟩
        rw [← h]

theorem builtDCList_pairwise_lt (d : DockerDriver) (pc : PodConfig) (m tv pv : String) :
    ∀ (idxs : List Nat) (b : Nat), List.Pairwise (fun a b2 => a < b2) idxs →
      List.Pairwise (fun a b2 => a.index < b2.index) (builtDCList d pc m tv pv idxs b) := by
  intro idxs
  induction idxs with
  | nil => intro b _; exact List.Pairwise.nil
  | cons i rest ih =>
    intro b hp
    rw [List.pairwise_cons] at hp
    refine List.Pairwise.cons ?_ (ih (b + 1) hp.2)
    intro dc hdc
    obtain ⟨j, hj, hje⟩ := builtDCList_mem_index d pc m tv pv rest (b + 1) dc hdc
    show ((i : Int)) < dc.index
    rw [hje]
    exact_mod_cast hp.1 j hj

/-! ## Claim C8: indices of a NewPod result -/

/-- A stale running container carrying pod `p8`'s full label set with
container index 7. -/
def c8stale : DCont :=
  { id := "old8",
    labels := [(agolaLabelKey, agolaLabelValue), (executorIDKey, "ex1"), (podIDKey, "p8"),
      (taskIDKey, "t8"), (containerIndexKey, "7")],
    entrypoint := [], env := [], workingDir := "", image := "x", privileged := false,
    networkMode := "", mounts := [], running := true }

def c8pc : PodConfig :=
  { id := "p8", taskID := "t8", initVolumeDir := "/mnt/agola", containers := [c1cfg] }

def c8st : DState :=
  { containers := [c8stale], volumes := [], images := [], nextID := 0, fetchLog := [],
    pulls := [] }

/-- C8 counterexample: with one declared container but a stale running
container carrying the same label set and index 7, `NewPod` succeeds and the
returned pod has TWO containers with indices `[0, 7]` — not `0..N-1` for the
declared `N = 1`. -/
theorem c8_counterexample :
    (newPod c1drv c8pc c8st).isOk = true ∧
    ((newPod c1drv c8pc c8st).toOption.getD default).2.containers.map
      (fun dc => dc.index) = [0, 7] ∧
    c8pc.containers.length = 1 := ⟨rfl, rfl, rfl⟩

/-- C8 (amended): if the daemon state holds no container matching the pod's
search labels (fresh pod ID), then a successful `NewPod` with `N` declared
containers returns exactly `N` containers whose indices are `0..N-1` with no
duplicates, ordered strictly ascending by index. -/
theorem c8_fresh_newpod_indices_ascending (d : DockerDriver) (pc : PodConfig)
    (st : DState) (r : DState × DockerPod)
    (hfresh : ∀ c ∈ st.containers, matchesLabels (newPodSearchLabels d pc) c.labels = false)
    (h : newPod d pc st = .ok r) :
    r.2.containers.length = pc.containers.length ∧
    r.2.containers.map (fun dc => dc.index) =
      (List.range pc.containers.length).map (fun j => (j : Int)) ∧
    List.Pairwise (fun a b => a.index < b.index) r.2.containers := by
  obtain ⟨b, tv, pv, hshape⟩ := newPod_fresh_shape hfresh h
  refine ⟨?_, ?_, ?_⟩
  · rw [hshape, builtDCList_length, List.length_range]
  · rw [hshape]
    exact builtDCList_map_index d pc ("c" ++ toString b) tv pv
      (List.range pc.containers.length) b
  · rw [hshape]
    exact builtDCList_pairwise_lt d pc ("c" ++ toString b) tv pv
      (List.range pc.containers.length) b (List.pairwise_lt_range _)

def c6drv : DockerDriver :=
  { toolboxPath := "/tb", initImage := "initimg:1", executorID := "ex1", network := "mynet" }

def c6pc : PodConfig :=
  { id := "p6", taskID := "t6", initVolumeDir := "/mnt/agola",
    containers := [c1cfg, { c1cfg with name := "db" }] }

theorem c8_fresh_newpod_indices_ascending_witness :
    ((newPod c1drv c6pc c1st).toOption.getD default).2.containers.map
      (fun dc => dc.index) = [0, 1] := by
  have h := (c8_fresh_newpod_indices_ascending c1drv c6pc c1st
    ((newPod c1drv c6pc c1st).toOption.getD default)
    (fun c hc => absurd hc (List.not_mem_nil c)) (by rfl)).2.1
  exact h.trans (by rfl)

/-! ## Claim C6: network wiring of a NewPod result -/

/-- C6 counterexample: a driver configured with network `mynet` still
creates container 0 with an EMPTY network mode — the configured driver-wide
network is recorded by `WithDockerDriverNetwork` but never applied (the
`network` field is never read in docker.go). -/
theorem c6_counterexample :
    c6drv.network = "mynet" ∧
    ((newPod c6drv c6pc c1st).toOption.getD default).2.containers.map
      (fun dc => (dc.index, dc.container.networkMode)) = [(0, ""), (1, "container:c3")] ∧
    ("" : String) ≠ "mynet" := ⟨rfl, rfl, by decide⟩

/-- C6 (amended): in a pod built by `NewPod` from a fresh daemon state,
container 0 is created with the runtime default (empty) network mode — the
configured driver-wide network is never applied — and every container with
index `i > 0` is created with network mode `container:<mainContainerID>`,
sharing container 0's network namespace. -/
theorem c6_sidecars_join_main_netns (d : DockerDriver) (pc : PodConfig)
    (st : DState) (r : DState × DockerPod)
    (hfresh : ∀ c ∈ st.containers, matchesLabels (newPodSearchLabels d pc) c.labels = false)
    (h : newPod d pc st = .ok r) :
    ∃ c0, r.2.containers.head? = some c0 ∧ c0.index = 0 ∧
      c0.container.networkMode = "" ∧
      ∀ dc ∈ r.2.containers, dc.index ≠ 0 →
        dc.container.networkMode = "container:" ++ c0.container.id := by
  obtain ⟨b, tv, pv, hshape⟩ := newPod_fresh_shape hfresh h
  obtain ⟨k, hk⟩ : ∃ k, pc.containers.length = k + 1 := by
    cases hNt : pc.containers.length with
    | zero =>
      have hempty : pc.containers = [] := List.length_eq_zero.mp hNt
      rw [c9_newpod_bad_input.1 d pc st hempty] at h
      exact absurd h (by simp)
    | succ k => exact ⟨k, rfl⟩
  rw [hk, List.range_succ_eq_map] at hshape
  have hhead : r.2.containers.head? =
      some (dcOf (builtCont d pc ("c" ++ toString b) tv pv 0 ("c" ++ toString b) true)
        ((0 : Nat) : Int)) := by
    rw [hshape]
    rfl
  refine ⟨_, hhead, rfl, ?_, ?_⟩
  · simp [dcOf, builtCont]
  · intro dc hdc hne
    rw [hshape] at hdc
    have hnet := (builtDCList_network d pc ("c" ++ toString b) tv pv
      (0 :: (List.range k).map Nat.succ) b dc hdc).2 hne
    rw [hnet]
    rfl

def c6res : DockerPod := ((newPod c6drv c6pc c1st).toOption.getD default).2

theorem c6_sidecars_join_main_netns_witness :
    (c6res.containers.headD default).container.networkMode = "" ∧
    (c6res.containers.getD 1 default).container.networkMode =
      "container:" ++ (c6res.containers.headD default).container.id := by
  obtain ⟨c0, hh, hz, hnm, hall⟩ := c6_sidecars_join_main_netns c6drv c6pc c1st
    ((newPod c6drv c6pc c1st).toOption.getD default)
    (fun c hc => absurd hc (List.not_mem_nil c)) (by rfl)
  have hc0 : c6res.containers.headD default = c0 := by
    have hrfl : c6res.containers.head? = some (c6res.containers.headD default) := by rfl
    exact Option.some.inj (hrfl.symm.trans hh)
  constructor
  · rw [hc0]
    exact hnm
  · rw [hc0]
    refine hall _ ?_ (by decide)
    exact List.mem_cons_of_mem _ (List.mem_cons_self _ _)

end AgolaDocker
